import Mathlib

/-!
# Verification of the predestination-station match orchestrator and agents

Shallow embedding of `src/judge_engine.py`, `src/agents.py`, `src/agentw.py`,
`src/agentc.py` and `src/agent_floodfill.py`.  Python integers are `Int`/`Nat`,
Python `%` with a zero modulus (which raises `ZeroDivisionError`) is made
explicit, fallible code returns `Except String`/`Option`, and the pseudo-random
draws of `random.choice` are modelled by an explicit index argument.
Python floats (latencies, heuristic weights) are modelled as `ℚ`; no claim
settled here depends on float rounding.
-/

namespace PredestinationStation

/-- Modelled from the spec: the rules-engine enum `Direction` lives in
`case_closed_game`, which is not under `src/`.  The spec says each direction
maps to a unit (dx,dy) step, and the agents (`agents.py` `DIRS`,
`agent_floodfill.py` `DIRS` built from `Direction.*.value`) fix the mapping
UP=(0,-1), DOWN=(0,1), LEFT=(-1,0), RIGHT=(1,0). -/
inductive Direction where
  | UP
  | DOWN
  | LEFT
  | RIGHT
deriving DecidableEq

/-- The (dx,dy) unit step of a direction (`Direction.value` in Python). -/
def Direction.value : Direction → Int × Int
  | .UP => (0, -1)
  | .DOWN => (0, 1)
  | .LEFT => (-1, 0)
  | .RIGHT => (1, 0)

/-- Helper for stating claims: the exact reverse of a direction. -/
def oppositeDir : Direction → Direction
  | .UP => .DOWN
  | .DOWN => .UP
  | .LEFT => .RIGHT
  | .RIGHT => .LEFT

/-- Modelled from the spec: the rules-engine enum `GameResult`
(`case_closed_game`, not under `src/`): AGENT1_WIN, AGENT2_WIN, DRAW. -/
inductive GameResult where
  | AGENT1_WIN
  | AGENT2_WIN
  | DRAW
deriving DecidableEq

/-! ## judge_engine.py — RandomPlayer -/

/-- `RandomPlayer.get_possible_moves` (judge_engine.py:12-14): all four
directions, in source order. -/
def get_possible_moves : List Direction := [.UP, .DOWN, .LEFT, .RIGHT]

/-- `RandomPlayer.get_best_move` (judge_engine.py:16-19):
`random.choice(possible_moves)`, the RNG draw modelled as an explicit index
`rng` reduced modulo the list length 4 (uniform over all four directions). -/
def get_best_move (rng : Nat) : Direction :=
  get_possible_moves.getD (rng % 4) .UP

/-- The `dir_to_str` dict of `main` (judge_engine.py:280,317): the canonical
string name of a direction. -/
def dir_to_str : Direction → String
  | .UP => "UP"
  | .DOWN => "DOWN"
  | .LEFT => "LEFT"
  | .RIGHT => "RIGHT"

/-! ## judge_engine.py — move values and fetching -/

/-- A JSON value an agent returned in the `move` field of `/send-move`.
`handle_move` only distinguishes strings from non-strings
(`isinstance(move, str)`); for a non-string only its Python truthiness can
matter (it decides whether the retry loop even calls `handle_move`), so a
non-string is modelled by its truthiness bit alone. -/
inductive MoveVal where
  | str (s : String)
  | nonStr (truthy : Bool)
deriving DecidableEq

/-- Python truthiness of a move value: a string is truthy iff nonempty. -/
def MoveVal.isTruthy : MoveVal → Bool
  | .str s => !(s == "")
  | .nonStr t => t

/-- Outcome of one `Judge.get_move` HTTP exchange as seen by the retry loop:
`fail` covers a timeout/exception or non-200 response or a missing `move`
field (`get_move` returns `None` in all those cases, judge_engine.py:100-129). -/
inductive FetchResult where
  | fail
  | got (m : MoveVal)
deriving DecidableEq

/-- Truthiness of the value the retry loop binds (`if p1_move:`). -/
def FetchResult.isTruthy : FetchResult → Bool
  | .fail => false
  | .got m => m.isTruthy

/-! ## judge_engine.py — Judge.handle_move -/

/-- Python `str.upper()` (ASCII suffices for move tokens): uppercase every
character.  (Implemented over the character list so that proofs can evaluate
it; extensionally it is `String.toUpper`.) -/
def pyUpper (s : String) : String :=
  String.mk (s.data.map Char.toUpper)

/-- Worker for `pySplitColon`: split a character list at every `:`. -/
def splitColonAux : List Char → List Char → List (List Char)
  | [], acc => [acc.reverse]
  | c :: cs, acc =>
    if c = ':' then acc.reverse :: splitColonAux cs []
    else splitColonAux cs (c :: acc)

/-- Python `s.split(':')`: the (always nonempty) list of `:`-separated
fields, e.g. `"" ↦ [""]`, `"UP:" ↦ ["UP", ""]`. -/
def pySplitColon (s : String) : List String :=
  (splitColonAux s.data []).map String.mk

/-- The `direction_map` dict of `Judge.handle_move` (judge_engine.py:177-182). -/
def direction_map (s : String) : Option Direction :=
  if s == "UP" then some .UP
  else if s == "DOWN" then some .DOWN
  else if s == "LEFT" then some .LEFT
  else if s == "RIGHT" then some .RIGHT
  else none

/-- The boost flag `handle_move` extracts from a move token
(judge_engine.py:172-174): `use_boost = len(move_parts) > 1 and
move_parts[1] == 'BOOST'` after uppercasing and splitting on `:`. -/
def parse_boost_flag (s : String) : Bool :=
  let move_parts := pySplitColon (pyUpper s)
  decide (1 < move_parts.length) && (move_parts.getD 1 "" == "BOOST")

/-- Result of `Judge.handle_move`: the string `"forfeit"` or the tuple
`(True, use_boost, direction)`. -/
inductive Validation where
  | forfeit
  | valid (use_boost : Bool) (dir : Direction)
deriving DecidableEq

/-- `Judge.handle_move` (judge_engine.py:163-211).  A non-string forfeits; the
token is uppercased and split on `:`; an unknown direction word forfeits; a
direction whose (dx,dy) is the exact negation of the agent's current
direction is replaced by the current direction.  The `game_str` logging append
and the print statements are elided (they carry no further control flow). -/
def handle_move (move : MoveVal) (current_dir : Direction) : Validation :=
  match move with
  | .nonStr _ => .forfeit
  | .str s =>
    let move_parts := pySplitColon (pyUpper s)
    let direction_str := move_parts.headD ""
    let use_boost := parse_boost_flag s
    match direction_map direction_str with
    | none => .forfeit
    | some direction =>
      if direction.value = (-current_dir.value.1, -current_dir.value.2) then
        .valid use_boost current_dir
      else
        .valid use_boost direction

/-! ## judge_engine.py — per-player move acquisition (main, lines 255-291) -/

/-- One attempt of the retry loop: the fetched value if it is truthy
(`if p1_move:`), else nothing. -/
def truthyFetch : FetchResult → Option MoveVal
  | .got m => if m.isTruthy then some m else none
  | .fail => none

/-- The move value the 2-attempt retry loop ends up validating: the first
truthy fetched value, if any (a truthy first attempt short-circuits via
`break`; a falsy fetch merely consumes the attempt). -/
def firstTruthyFetch (a1 a2 : FetchResult) : Option MoveVal :=
  match truthyFetch a1 with
  | some m => some m
  | none => truthyFetch a2

/-- Outcome of acquiring one player's move for a turn. -/
inductive AcquireOutcome where
  | forfeitOut
  | move (dir : Direction) (use_boost : Bool) (random_left : Nat) (is_random : Bool)
deriving DecidableEq

/-- The per-player move-request phase of `main` (judge_engine.py:255-291 for
player 1, 292-327 for player 2; both are identical).  The two fetch attempts
are `a1`,`a2`; `current_dir` is the agent's `direction` in the game object;
`random_left` the player's remaining random-move allowance; `rng` the
`random.choice` draw used if the random fallback fires.

Faithfulness notes: the fallback fires exactly when both fetched values are
falsy (`if not p1_move or not validation` — when the last fetch was truthy,
`validation` was necessarily bound to a truthy tuple this turn, since a
`"forfeit"` validation returned from `main` already).  In the fallback branch
(lines 274-282) `main` calls `handle_move(dir_to_str[p1_direction], 1,
is_random=True)` but *discards* the direction in its return value (it only
appends to the move log): `p1_direction` keeps the raw random draw, and
`p1_boost` is forced to `False`. -/
def acquireMove (a1 a2 : FetchResult) (current_dir : Direction)
    (random_left : Nat) (rng : Nat) : AcquireOutcome :=
  match firstTruthyFetch a1 a2 with
  | some m =>
    match handle_move m current_dir with
    | .forfeit => .forfeitOut
    | .valid b d => .move d b random_left false
  | none =>
    if 0 < random_left then
      .move (get_best_move rng) false (random_left - 1) true
    else
      .forfeitOut

/-! ## judge_engine.py — the turn loop of main (lines 246-352) -/

/-- The judge's view of the external rules-engine game object: an opaque core
plus the three fields the orchestrator reads (`game.turns`,
`game.agent1.direction`, `game.agent2.direction`). -/
structure GameSt (σ : Type) where
  core : σ
  turns : Nat
  dir1 : Direction
  dir2 : Direction

/-- One call of `game.step(p1_direction, p2_direction, p1_boost, p2_boost)`:
a new game state and an optional terminal result.  The rules engine is
external (`case_closed_game` is not under `src/`), so it is a parameter. -/
def EngineStep (σ : Type) : Type :=
  GameSt σ → Direction → Bool → Direction → Bool → GameSt σ × Option GameResult

/-- Result of running the turn loop with a fuel bound. -/
inductive LoopResult where
  | finished (r : GameResult)
  | outOfFuel
deriving DecidableEq

/-- The `while True` turn loop of `main` (judge_engine.py:246-352), fuelled.
`sched t p a` is the fetch outcome for turn-count `t`, player-2 flag `p`,
attempt `a`; `rng t p` the random draw for the fallback.  Each iteration:
acquire player 1's move (forfeit ⇒ AGENT2_WIN ends the match at once), then
player 2's (forfeit ⇒ AGENT1_WIN), submit both raw directions and boost flags
to `game.step`, finish on a terminal result, else finish with DRAW once
`game.turns >= 500`.  State pushes, end-of-game broadcasts and printing are
network effects with no influence on control flow and are elided. -/
def matchLoop {σ : Type} (sched : Nat → Bool → Nat → FetchResult)
    (rng : Nat → Bool → Nat) (engine : EngineStep σ) :
    Nat → GameSt σ → Nat → Nat → LoopResult
  | 0, _, _, _ => .outOfFuel
  | fuel+1, st, p1_random, p2_random =>
    match acquireMove (sched st.turns false 1) (sched st.turns false 2)
        st.dir1 p1_random (rng st.turns false) with
    | .forfeitOut => .finished .AGENT2_WIN
    | .move d1 b1 p1r _ =>
      match acquireMove (sched st.turns true 1) (sched st.turns true 2)
          st.dir2 p2_random (rng st.turns true) with
      | .forfeitOut => .finished .AGENT1_WIN
      | .move d2 b2 p2r _ =>
        let step := engine st d1 b1 d2 b2
        match step.2 with
        | some r => .finished r
        | none =>
          if 500 ≤ step.1.turns then .finished .DRAW
          else matchLoop sched rng engine fuel step.1 p1r p2r

/-! ## judge_engine.py — PlayerAgent and Judge.get_move (for the frame claim) -/

/-- `PlayerAgent` (judge_engine.py:23-27): participant, agent name, latency
(a float, modelled as ℚ; `None` before the first measurement). -/
structure PlayerAgent where
  participant : String
  agent_name : String
  latency : Option ℚ
deriving DecidableEq

/-- The observable outcome of the HTTP exchange inside `Judge.get_move`:
an exception/timeout, or a completed response with a status code and the
optional `move` field of its JSON body. -/
inductive HttpOutcome where
  | exn
  | response (status : Nat) (mv : Option MoveVal)
deriving DecidableEq

/-- `Judge.get_move` (judge_engine.py:100-129) restricted to its effect on the
player's `PlayerAgent` record and its returned move.  On any completed
exchange (exception-free), lines 117-120 overwrite `latency` with the newly
measured elapsed time *before* the status check; a non-200 status then yields
`None`, a 200 yields the body's `move` field.  On an exception the record is
untouched and `None` is returned. -/
def get_move (agent : PlayerAgent) (elapsed : ℚ) (out : HttpOutcome) :
    PlayerAgent × Option MoveVal :=
  match out with
  | .exn => (agent, none)
  | .response status mv =>
    let agent' := { agent with latency := some elapsed }
    if status == 200 then (agent', mv) else (agent', none)

/-- Following the spec's words (VALIDATE step): a move token must be exactly
`DIRECTION` or `DIRECTION:BOOST` with DIRECTION one of UP, DOWN, LEFT, RIGHT.
Stated as its own definition so claims can compare the implementation's
acceptance against the spec's grammar. -/
def spec_token_ok (s : String) : Bool :=
  ["UP", "DOWN", "LEFT", "RIGHT",
   "UP:BOOST", "DOWN:BOOST", "LEFT:BOOST", "RIGHT:BOOST"].contains s

/-! ## agents.py / agent_floodfill.py — heading inference -/

/-- `infer_current_dir` (agents.py:135-151; identical to
`_infer_current_dir`, agent_floodfill.py:102-118): heading from the last two
trail cells, any delta of magnitude above 1 normalized to the opposite unit
step (torus wrap).  `W`,`H` are parameters of the source function but unused
by it.  `none` models Python `None` ("unknown"). -/
def infer_current_dir (trail : List (Int × Int)) (W H : Nat) : Option String :=
  if trail.length < 2 then none
  else
    let p2 := trail.getD (trail.length - 1) (0, 0)
    let p1 := trail.getD (trail.length - 2) (0, 0)
    let dx0 := p2.1 - p1.1
    let dy0 := p2.2 - p1.2
    let dx1 := if dx0 > 1 then -1 else dx0
    let dx := if dx1 < -1 then 1 else dx1
    let dy1 := if dy0 > 1 then -1 else dy0
    let dy := if dy1 < -1 then 1 else dy1
    if dx = 1 ∧ dy = 0 then some "RIGHT"
    else if dx = -1 ∧ dy = 0 then some "LEFT"
    else if dx = 0 ∧ dy = 1 then some "DOWN"
    else if dx = 0 ∧ dy = -1 then some "UP"
    else none

/-! ## agents.py / agent_floodfill.py — grid geometry and flood fill -/

/-- `torus` (agents.py:113-114; `_torus`, agent_floodfill.py:90-91): wrap a
coordinate pair modulo (W,H).  `Int.emod` agrees with Python `%` whenever the
modulus is positive; the flood fill below only wraps when some cell is free,
which forces `W,H ≥ 1` (for `W=0` or `H=0` Python raises, a case modelled
explicitly where it is reachable, in the move evaluators). -/
def torus (p : Int × Int) (W H : Nat) : Int × Int :=
  (p.1 % (W : Int), p.2 % (H : Int))

/-- `neighbors` (agents.py:116-119; `_neighbors`, agent_floodfill.py:93-96):
the four wrapped neighbours, in source order (1,0),(-1,0),(0,1),(0,-1). -/
def neighborsList (p : Int × Int) (W H : Nat) : List (Int × Int) :=
  [torus (p.1 + 1, p.2) W H, torus (p.1 - 1, p.2) W H,
   torus (p.1, p.2 + 1) W H, torus (p.1, p.2 - 1) W H]

/-- `is_cell_free` (agents.py:121-123; `_is_cell_free`,
agent_floodfill.py:120-122): `0 <= y < len(board) and 0 <= x < len(board[0])
and board[y][x] == 0`.  Note the x bound checks the *first* row's length;
`board[0]` is only evaluated after the y-check succeeds (short-circuit), so
`headD []` is exact.  In all claims below boards are rectangular, where the
`getD` cell access agrees with Python indexing. -/
def is_cell_free (board : List (List Nat)) (p : Int × Int) : Bool :=
  decide (0 ≤ p.2) && decide (p.2 < (board.length : Int)) &&
  decide (0 ≤ p.1) && decide (p.1 < ((board.headD []).length : Int)) &&
  ((board.getD p.2.toNat []).getD p.1.toNat 0 == 0)

/-- The inner `for n in neighbors(v, W, H)` loop of `flood_fill_count`
(agents.py:162-168): each unseen free neighbour is added to the seen set and
appended to the queue; the running count `c` always equals `seen.length`
(both start at 1 and increment together), so it is not tracked separately.
When a limit is set and the count reaches it, the whole call returns the
count immediately (`return c`), modelled by the `.inr` summand. -/
def floodNeighbors (board : List (List Nat)) (limit : Option Nat) :
    List (Int × Int) → List (Int × Int) → List (Int × Int) →
    (List (Int × Int) × List (Int × Int)) ⊕ Nat
  | [], q, seen => .inl (q, seen)
  | n :: rest, q, seen =>
    if n ∉ seen ∧ is_cell_free board n = true then
      let seen2 := seen ++ [n]
      match limit with
      | some l =>
        if l ≤ seen2.length then .inr seen2.length
        else floodNeighbors board limit rest (q ++ [n]) seen2
      | none => floodNeighbors board limit rest (q ++ [n]) seen2
    else floodNeighbors board limit rest q seen

/-- The `while q:` worklist loop of `flood_fill_count` (agents.py:160-168),
fuelled; `v = q.popleft()` is FIFO (pop the head, append at the tail).  A
fuel of `W*H+1` always suffices (each iteration pops one cell and every cell
enters the queue at most once; proved below), so the fuel-exhaustion arm is
unreachable from `flood_fill_count`. -/
def floodLoop (board : List (List Nat)) (W H : Nat) (limit : Option Nat) :
    Nat → List (Int × Int) → List (Int × Int) → List (Int × Int) ⊕ Nat
  | 0, _, seen => .inl seen
  | fuel + 1, q, seen =>
    match q with
    | [] => .inl seen
    | v :: qrest =>
      match floodNeighbors board limit (neighborsList v W H) qrest seen with
      | .inr c => .inr c
      | .inl (q2, seen2) => floodLoop board W H limit fuel q2 seen2

/-- `flood_fill_count` (agents.py:153-169; identical up to naming to
`_flood_fill_count`, agent_floodfill.py:132-147): BFS count of reachable
free cells from `start`, 0 if `start` itself is not free, optionally cut
short once the count reaches `limit`. -/
def flood_fill_count (board : List (List Nat)) (start : Int × Int)
    (W H : Nat) (limit : Option Nat) : Nat :=
  if is_cell_free board start then
    match floodLoop board W H limit (W * H + 1) [start] [start] with
    | .inl seen => seen.length
    | .inr c => c
  else 0

/-- Helper for stating claims: `p` is an in-range cell of a W×H grid. -/
def inRangeCell (W H : Nat) (p : Int × Int) : Prop :=
  0 ≤ p.1 ∧ p.1 < (W : Int) ∧ 0 ≤ p.2 ∧ p.2 < (H : Int)

/-! ## The snapshot dictionary agents receive -/

/-- The game-state dictionary the judge pushes to agents
(judge_engine.py:80-92) as the move evaluators read it.  A missing `board`
key (or a JSON null) is `none`; missing trails are read by every evaluator
through `.get(key, [])` (AgentS additionally `or []`), so the empty list
models them; the numeric fields are always sent by the judge and are read
with numeric defaults, so they are carried directly. -/
structure Snapshot where
  board : Option (List (List Nat))
  agent1_trail : List (Int × Int)
  agent2_trail : List (Int × Int)
  agent1_length : Nat
  agent2_length : Nat
  agent1_boosts : Nat
  agent2_boosts : Nat
  turn_count : Nat
  player_number : Nat
deriving DecidableEq

/-- The `ACTIONS` list of AgentS (agents.py:9-12) and AgentC (agentc.py:9-12),
identical in both sources. -/
def ACTIONS : List String :=
  ["UP", "DOWN", "LEFT", "RIGHT",
   "UP:BOOST", "DOWN:BOOST", "LEFT:BOOST", "RIGHT:BOOST"]

/-! ## agents.py — AgentS helper functions -/

/-- Python `%` on integers: `ZeroDivisionError` on a zero modulus, else
`Int.emod`, which agrees with Python `%` for a positive modulus. -/
def pyMod (a : Int) (n : Nat) : Except String Int :=
  if n = 0 then .error "ZeroDivisionError" else .ok (a % (n : Int))

/-- Python list indexing `l[i]` including the negative-index wrap; the
default `d` is only a typing artifact, never returned (any in-range access
takes the `getD` in range). -/
def pyIndex {α : Type} (l : List α) (d : α) (i : Int) : Except String α :=
  if 0 ≤ i ∧ i < (l.length : Int) then .ok (l.getD i.toNat d)
  else if -(l.length : Int) ≤ i ∧ i < 0 then .ok (l.getD (l.length - (-i).toNat) d)
  else .error "IndexError"

/-- Python `int()` truncation toward zero of a rational. -/
def pyIntTrunc (q : ℚ) : Int :=
  if q < 0 then -(Int.floor (-q)) else Int.floor q

/-- `dims` (agents.py:108-111): `H = len(board)`,
`W = len(board[0]) if H else 0`. -/
def dims (board : List (List Nat)) : Nat × Nat :=
  let H := board.length
  ((if H ≠ 0 then (board.headD []).length else 0), H)

/-- `torus` (agents.py:113-114) with Python's `ZeroDivisionError` on a zero
modulus made explicit (reachable in `AgentS.choose_action` via an empty
board, where W = H = 0). -/
def torusE (p : Int × Int) (W H : Nat) : Except String (Int × Int) :=
  if W = 0 ∨ H = 0 then .error "ZeroDivisionError"
  else .ok (p.1 % (W : Int), p.2 % (H : Int))

/-- The `DIRS` dict of AgentS (agents.py:101-106).  Callers only look the
four canonical names up, so the catch-all arm (RIGHT) is never the result of
a lookup the source would have raised KeyError on. -/
def sDIRS (d : String) : Int × Int :=
  if d == "UP" then (0, -1)
  else if d == "DOWN" then (0, 1)
  else if d == "LEFT" then (-1, 0)
  else (1, 0)

/-- `simulate_step` (agents.py:125-130): wrapped destination plus crash flag
from the (bounds-unchecked) destination cell `board[nxt[1]][nxt[0]]`. -/
def simulate_step (board : List (List Nat)) (pos : Int × Int) (move_dir : String)
    (W H : Nat) : Except String ((Int × Int) × Bool) := do
  let d := sDIRS move_dir
  let nxt ← torusE (pos.1 + d.1, pos.2 + d.2) W H
  let row ← pyIndex board [] nxt.2
  let cell ← pyIndex row 0 nxt.1
  if cell ≠ 0 then return (nxt, true) else return (nxt, false)

/-- `reverse_dir` (agents.py:132-133); callers only pass the four canonical
names. -/
def reverse_dir (d : String) : String :=
  if d == "UP" then "DOWN"
  else if d == "DOWN" then "UP"
  else if d == "LEFT" then "RIGHT"
  else "LEFT"

/-- `tdist` (agents.py:171-174): torus Manhattan distance.  Pure `emod`: on
the W=0/H=0 boards where Python would raise here, the surrounding
`choose_action` computation independently raises before returning (at the
opponent-future or candidate simulate_step), so the whole call errors in
both readings. -/
def tdist (a b : Int × Int) (W H : Nat) : Int :=
  min ((a.1 - b.1) % (W : Int)) ((b.1 - a.1) % (W : Int)) +
  min ((a.2 - b.2) % (H : Int)) ((b.2 - a.2) % (H : Int))

/-- The cell scan order of `voronoi_score`: row-major over the grid. -/
def rowMajorCells (W H : Nat) : List (Int × Int) :=
  (List.range H).flatMap fun y => (List.range W).map fun x => ((x : Int), (y : Int))

/-- The loop body of `voronoi_score` (agents.py:176-189): occupied cells are
skipped; each inspected free cell consumes budget, and once more than `cap`
free cells have been inspected the current count is returned; a free cell
strictly closer to `my_head` than to `opp_head` scores 1.  The direct
`board[y][x]` read is in range for the rectangular boards every claim below
uses. -/
def voronoiLoop (board : List (List Nat)) (my_head opp_head : Int × Int)
    (W H cap : Nat) : List (Int × Int) → Nat → Nat → Nat
  | [], _, my_count => my_count
  | p :: rest, counted, my_count =>
    if (board.getD p.2.toNat []).getD p.1.toNat 0 ≠ 0 then
      voronoiLoop board my_head opp_head W H cap rest counted my_count
    else if cap < counted + 1 then my_count
    else if tdist p my_head W H < tdist p opp_head W H then
      voronoiLoop board my_head opp_head W H cap rest (counted + 1) (my_count + 1)
    else
      voronoiLoop board my_head opp_head W H cap rest (counted + 1) my_count

/-- `voronoi_score` (agents.py:176-189). -/
def voronoi_score (board : List (List Nat)) (my_head opp_head : Int × Int)
    (W H cap : Nat) : Nat :=
  voronoiLoop board my_head opp_head W H cap (rowMajorCells W H) 0 0

/-- `dir_towards` (agents.py:191-205): the axis directions that reduce the
torus distance from `a` to `b`; all four when equidistant on both axes.
(The source builds a set; only membership is consumed.) -/
def dir_towards (a b : Int × Int) (W H : Nat) : List String :=
  let dx_right := (b.1 - a.1) % (W : Int)
  let dx_left := (a.1 - b.1) % (W : Int)
  let part1 : List String :=
    if dx_right < dx_left then ["RIGHT"]
    else if dx_left < dx_right then ["LEFT"] else []
  let dy_down := (b.2 - a.2) % (H : Int)
  let dy_up := (a.2 - b.2) % (H : Int)
  let part2 : List String :=
    if dy_down < dy_up then ["DOWN"]
    else if dy_up < dy_down then ["UP"] else []
  let dirs := part1 ++ part2
  if dirs.isEmpty then ["UP", "DOWN", "LEFT", "RIGHT"] else dirs

/-- The probe loop of `straight_clear_len` (agents.py:207-216): walk up to
`max_steps` wrapped steps, stopping at the first crash. -/
def straightClearGo (board : List (List Nat)) (move_dir : String) (W H : Nat) :
    Nat → (Int × Int) → Nat → Except String Nat
  | 0, _, steps => .ok steps
  | k + 1, probe, steps => do
    let r ← simulate_step board probe move_dir W H
    if r.2 then .ok steps
    else straightClearGo board move_dir W H k r.1 (steps + 1)

/-- `resolve_stage` under the literal CFG (STAGE_MODE="turns",
agents.py:246-258): early for turn ≤ 28, mid for turn ≤ 120, else late.
The "spaces" branch is dead under the shipped configuration. -/
def resolve_stage (turn : Nat) : String :=
  if turn ≤ 28 then "early" else if turn ≤ 120 then "mid" else "late"

/-- Stage weight W_AREA (agents.py:45-61; floats as ℚ). -/
def stage_W_AREA (stage : String) : ℚ :=
  if stage == "early" then 16/10 else if stage == "mid" then 2 else 3

/-- Stage weight W_VORONOI (agents.py:45-61). -/
def stage_W_VORONOI (stage : String) : ℚ :=
  if stage == "early" then 21/10 else if stage == "mid" then 2 else 8/10

/-- Stage HEADON_PENALTY (agents.py:45-61). -/
def stage_HEADON_PENALTY (stage : String) : ℚ :=
  if stage == "early" then -900 else if stage == "mid" then -550 else -450

/-- `is_kamikaze` (agents.py:270-281): early stage only, needs a known
opponent heading, the opponent within torus distance 3 heading toward us,
with a clear straight run of at least 2 cells. -/
def is_kamikaze (board : List (List Nat)) (stage : String)
    (opp_dir : Option String) (opp_head my_head : Int × Int) (W H : Nat) :
    Except String Bool :=
  match opp_dir with
  | none => .ok false
  | some od =>
    if stage ≠ "early" then .ok false
    else if 3 < tdist opp_head my_head W H then .ok false
    else if od ∉ dir_towards opp_head my_head W H then .ok false
    else do
      let lane ← straightClearGo board od W H 6 opp_head 0
      return decide (2 ≤ lane)

/-- The canonical candidate order `DIR_ORDER` (agents.py:84). -/
def DIR_ORDER : List String := ["UP", "RIGHT", "DOWN", "LEFT"]

/-- The plausible opponent next cells (agents.py:294-301): one wrapped step
from the opponent head along each non-reversing direction.  (The source
builds a set; only membership is consumed.) -/
def oppFutureM (board : List (List Nat)) (opp_head : Int × Int)
    (opp_opts : List String) (W H : Nat) : Except String (List (Int × Int)) :=
  opp_opts.mapM fun od => (simulate_step board opp_head od W H).map fun r => r.1

/-- The per-candidate score of `AgentS.choose_action` (agents.py:303-337):
crash scores -1e9, otherwise flood-fill area, Voronoi count, stage head-on
penalty (scaled by `int(danger * 0.82)` for player 1 — the float product is
modelled exactly over ℚ; no claim depends on score values), kamikaze extras
and the straight bonus. -/
def candScore (board : List (List Nat)) (opp_head : Int × Int)
    (my_dir : String) (pnum : Nat) (wArea wVor headon : ℚ) (kamikaze : Bool)
    (opp_future : List (Int × Int)) (W H : Nat) (d : String)
    (r : (Int × Int) × Bool) : ℚ :=
  if r.2 then -1000000000
  else
    let area := flood_fill_count board r.1 W H (some 320)
    let vscore := voronoi_score board r.1 opp_head W H 240
    let danger0 : ℚ := if r.1 ∈ opp_future then headon else 0
    let danger1 : ℚ :=
      if danger0 ≠ 0 ∧ pnum = 1 then ((pyIntTrunc (danger0 * (82/100)) : Int) : ℚ)
      else danger0
    let danger2 : ℚ :=
      if kamikaze ∧ r.1 ∈ opp_future then danger1 + (-400) else danger1
    let straight_bonus : ℚ := if d == my_dir then 10 else 0
    let base := wArea * (area : ℚ) + wVor * (vscore : ℚ) + danger2 + straight_bonus
    if kamikaze then base + 12 * ((tdist r.1 opp_head W H : Int) : ℚ) else base

/-- The fold over candidates (agents.py:303-339): strictly greater scores
win, so ties keep the earlier candidate. -/
def scoreCandidates (board : List (List Nat)) (my_head : Int × Int)
    (opp_head : Int × Int) (my_dir : String) (pnum : Nat)
    (wArea wVor headon : ℚ) (kamikaze : Bool) (opp_future : List (Int × Int))
    (W H : Nat) : List String → Option String → ℚ →
    Except String (Option String × ℚ)
  | [], best, best_score => .ok (best, best_score)
  | d :: rest, best, best_score =>
    match simulate_step board my_head d W H with
    | .error e => .error e
    | .ok r =>
      if best_score < candScore board opp_head my_dir pnum wArea wVor headon
          kamikaze opp_future W H d r then
        scoreCandidates board my_head opp_head my_dir pnum wArea wVor headon
          kamikaze opp_future W H rest (some d)
          (candScore board opp_head my_dir pnum wArea wVor headon kamikaze
            opp_future W H d r)
      else
        scoreCandidates board my_head opp_head my_dir pnum wArea wVor headon
          kamikaze opp_future W H rest best best_score

/-- The boost lookahead loop (agents.py:348-354): up to 5 steps along the
chosen direction; the probe keeps the crash cell, the depth counts the free
steps. -/
def boostProbeGo (board : List (List Nat)) (chosen : String) (W H : Nat) :
    Nat → (Int × Int) → Nat → Except String ((Int × Int) × Nat)
  | 0, probe, depth => .ok (probe, depth)
  | k + 1, probe, depth => do
    let r ← simulate_step board probe chosen W H
    if r.2 then .ok (r.1, depth)
    else boostProbeGo board chosen W H k r.1 (depth + 1)

/-- The mover's trail as AgentS reads it (agents.py:227-229). -/
def sMyTrail (gs : Snapshot) : List (Int × Int) :=
  if gs.player_number = 1 then gs.agent1_trail else gs.agent2_trail

/-- The opponent's trail (agents.py:227-230). -/
def sOppTrail (gs : Snapshot) : List (Int × Int) :=
  if gs.player_number = 1 then gs.agent2_trail else gs.agent1_trail

/-- The mover's boost count (agents.py:237). -/
def sBoosts (gs : Snapshot) : Nat :=
  if gs.player_number = 1 then gs.agent1_boosts else gs.agent2_boosts

/-- `W` from `dims` (agents.py:225). -/
def sW (board : List (List Nat)) : Nat := (dims board).1

/-- `H` from `dims` (agents.py:225). -/
def sH (board : List (List Nat)) : Nat := (dims board).2

/-- `my_head` (agents.py:232): trail head, or (0,0) with no trail. -/
def sMyHead (gs : Snapshot) : Int × Int :=
  (sMyTrail gs).getD ((sMyTrail gs).length - 1) (0, 0)

/-- `opp_head` (agents.py:233): trail head, or (W-1,H-1) with no trail. -/
def sOppHead (gs : Snapshot) (board : List (List Nat)) : Int × Int :=
  if (sOppTrail gs).isEmpty then ((sW board : Int) - 1, (sH board : Int) - 1)
  else (sOppTrail gs).getD ((sOppTrail gs).length - 1) (0, 0)

/-- `my_dir` (agents.py:234): inferred heading with fallback "RIGHT". -/
def sMyDir (gs : Snapshot) (board : List (List Nat)) : String :=
  (infer_current_dir (sMyTrail gs) (sW board) (sH board)).getD "RIGHT"

/-- `opp_dir` (agents.py:235). -/
def sOppDir (gs : Snapshot) (board : List (List Nat)) : Option String :=
  infer_current_dir (sOppTrail gs) (sW board) (sH board)

/-- The candidate directions (agents.py:288-291): DIR_ORDER minus the
mover's hard reverse (AVOID_HARD_REVERSE is true in the literal CFG). -/
def sCandidates (my_dir : String) : List String :=
  DIR_ORDER.filter fun d => !(d == reverse_dir my_dir)

/-- The opponent's plausible directions (agents.py:294-297). -/
def sOppOpts (opp_dir : Option String) : List String :=
  match opp_dir with
  | some od => DIR_ORDER.filter fun x => !(x == reverse_dir od)
  | none => DIR_ORDER

/-- `chosen = best or my_dir or "RIGHT"` (agents.py:341). -/
def sChosen (best : Option String) (my_dir : String) : String :=
  match best with
  | some b => b
  | none => if my_dir == "" then "RIGHT" else my_dir

/-- The boost policy tail of `AgentS.choose_action` (agents.py:346-371),
entered only when boosts remain: probe the runway, suppress near the
opponent, and boost on a mid-game runway or a cramped best score — unless a
detected kamikaze makes boosting fail to strictly increase distance. -/
def sBoostTail (gs : Snapshot) (board : List (List Nat)) (kamikaze : Bool)
    (chosen : String) (best_score : ℚ) : Except String String :=
  match boostProbeGo board chosen (sW board) (sH board) 5 (sMyHead gs) 0 with
  | .error e => .error e
  | .ok pr =>
    if (¬ tdist (sMyHead gs) (sOppHead gs board) (sW board) (sH board) ≤ 2 ∧
        ((2 ≤ pr.2 ∧ 24 ≤ gs.turn_count ∧ gs.turn_count ≤ 120) ∨
         (best_score < 80 ∧ 1 ≤ pr.2))) then
      if ¬ kamikaze ∨ tdist (sMyHead gs) (sOppHead gs board) (sW board) (sH board) <
          tdist pr.1 (sOppHead gs board) (sW board) (sH board) then
        .ok (chosen ++ ":BOOST")
      else .ok chosen
    else .ok chosen

/-- The board-present body of `AgentS.choose_action` (agents.py:225-371). -/
def sMain (gs : Snapshot) (board : List (List Nat)) : Except String String :=
  match is_kamikaze board (resolve_stage gs.turn_count) (sOppDir gs board)
      (sOppHead gs board) (sMyHead gs) (sW board) (sH board) with
  | .error e => .error e
  | .ok kamikaze =>
    match oppFutureM board (sOppHead gs board) (sOppOpts (sOppDir gs board))
        (sW board) (sH board) with
    | .error e => .error e
    | .ok opp_future =>
      match scoreCandidates board (sMyHead gs) (sOppHead gs board)
          (sMyDir gs board) gs.player_number
          (stage_W_AREA (resolve_stage gs.turn_count))
          (stage_W_VORONOI (resolve_stage gs.turn_count))
          (stage_HEADON_PENALTY (resolve_stage gs.turn_count)) kamikaze
          opp_future (sW board) (sH board) (sCandidates (sMyDir gs board))
          none (-1000000000000000000 : ℚ) with
      | .error e => .error e
      | .ok bp =>
        if 0 < sBoosts gs then
          sBoostTail gs board kamikaze (sChosen bp.1 (sMyDir gs board)) bp.2
        else .ok (sChosen bp.1 (sMyDir gs board))

/-- `AgentS.choose_action` (agents.py:17-371) under its literal CFG.
Python exceptions (`ZeroDivisionError` from a zero grid dimension,
`IndexError` from unchecked indexing) propagate out of the source function —
AgentS has no handler — and are the `.error` results here.  On ragged
boards Python can also raise inside the flood-fill/Voronoi scoring where
this embedding reads a default 0; the judge only sends rectangular boards
and no claim below depends on score values.  The `empty_cells` count of
line 241 only feeds the dead "spaces" stage mode and is elided. -/
def chooseActionS (gs : Snapshot) : Except String String :=
  match gs.board with
  | none => .ok "RIGHT"
  | some board => sMain gs board

/-! ## agentw.py — AgentW -/

/-- AgentW's direction names in the insertion order of its `DIRS` dict
(agentw.py:13-19). -/
def W_DIR_NAMES : List String := ["UP", "DOWN", "LEFT", "RIGHT"]

/-- AgentW's `DIRS` lookup (agentw.py:13-18); callers only pass the four
canonical names. -/
def wDirVal (d : String) : Int × Int :=
  if d == "UP" then (0, -1)
  else if d == "DOWN" then (0, 1)
  else if d == "LEFT" then (-1, 0)
  else (1, 0)

/-- `AgentW.wrap` (agentw.py:30-31): coordinates modulo the fixed
COLS=20 × ROWS=18 grid (never a zero modulus, so pure). -/
def wWrap (x y : Int) : Int × Int := (x % 20, y % 18)

/-- `AgentW.simulate_step` (agentw.py:37-41). -/
def wSimulateStep (pos : Int × Int) (direction : String) (steps : Int) :
    Int × Int :=
  let d := wDirVal direction
  wWrap (pos.1 + d.1 * steps) (pos.2 + d.2 * steps)

/-- `AgentW._safe_get_board` (agentw.py:44-49): an 18×20 zero board when the
snapshot has none. -/
def wSafeGetBoard (b : Option (List (List Nat))) : List (List Nat) :=
  match b with
  | none => List.replicate 18 (List.replicate 20 0)
  | some board => board

/-- `AgentW.build_occupied_set` (agentw.py:51-78): board cells equal to 1
(row/column scans clipped to the 18×20 grid and to each row's own length, so
no indexing can fail) plus both trails.  The source builds a set; only
membership is consumed, so a duplicate-carrying list is an equivalent
model. -/
def buildOccupiedSet (state : Snapshot) : List (Int × Int) :=
  let board := wSafeGetBoard state.board
  let boardOcc := (List.range (min 18 board.length)).flatMap fun y =>
    let row := board.getD y []
    (List.range (min 20 row.length)).filterMap fun x =>
      if row.getD x 0 = 1 then some ((x : Int), (y : Int)) else none
  boardOcc ++ state.agent1_trail ++ state.agent2_trail

/-- `head_from_trail` inside `AgentW.head_positions` (agentw.py:81-89). -/
def headFromTrail (trail : List (Int × Int)) : Option (Int × Int) :=
  if trail.isEmpty then none
  else some (trail.getD (trail.length - 1) (0, 0))

/-- `AgentW.neighbors` (agentw.py:91-95), in the `DIRS.values()` order
UP, DOWN, LEFT, RIGHT. -/
def wNeighbors (pos : Int × Int) : List (Int × Int) :=
  [wWrap pos.1 (pos.2 - 1), wWrap pos.1 (pos.2 + 1),
   wWrap (pos.1 - 1) pos.2, wWrap (pos.1 + 1) pos.2]

/-- The neighbour scan inside `AgentW.flood_fill_area` (agentw.py:104-109):
unseen, unoccupied neighbours join the seen set and the queue. -/
def wFloodNbrs (occ : List (Int × Int)) :
    List (Int × Int) → List (Int × Int) → List (Int × Int) →
    List (Int × Int) × List (Int × Int)
  | [], q, seen => (q, seen)
  | n :: rest, q, seen =>
    if n ∈ seen ∨ n ∈ occ then wFloodNbrs occ rest q seen
    else wFloodNbrs occ rest (q ++ [n]) (seen ++ [n])

/-- The `while q and len(seen) < max_nodes` loop of `AgentW.flood_fill_area`
(agentw.py:100-110), fuelled.  `max_nodes + 50` fuel always covers the run
(every pop was enqueued, each wrapped cell enters `seen` at most once and
the 18×20 universe has 360 cells); no claim below depends on this value, it
only feeds AgentW's candidate ranking. -/
def wFloodGo (occ : List (Int × Int)) (max_nodes : Nat) :
    Nat → List (Int × Int) → List (Int × Int) → Nat
  | 0, _, seen => seen.length
  | fuel + 1, q, seen =>
    match q with
    | [] => seen.length
    | cur :: qrest =>
      if seen.length < max_nodes then
        let pr := wFloodNbrs occ (wNeighbors cur) qrest seen
        wFloodGo occ max_nodes fuel pr.1 pr.2
      else seen.length

/-- `AgentW.flood_fill_area` (agentw.py:97-110). -/
def wFloodFillArea (start : Option (Int × Int)) (occ : List (Int × Int))
    (max_nodes : Nat) : Nat :=
  match start with
  | none => 0
  | some s => if s ∈ occ then 0 else wFloodGo occ max_nodes (max_nodes + 50) [s] [s]

/-- `AgentW.last_positions` (agentw.py:113-133): the mover's head and the
cell before it. -/
def lastPositions (state : Snapshot) :
    Option (Int × Int) × Option (Int × Int) :=
  let me := state.player_number
  let trail := if me = 1 then state.agent1_trail else state.agent2_trail
  if trail.isEmpty then (none, none)
  else
    (some (trail.getD (trail.length - 1) (0, 0)),
     if 2 ≤ trail.length then some (trail.getD (trail.length - 2) (0, 0)) else none)

/-- One candidate move of `AgentW.propose_moves`: the tuple
`(move_str, result_cell, used_boost, dead)`. -/
structure WCandidate where
  move_str : String
  result_cell : Option (Int × Int)
  used_boost : Bool
  dead : Bool
deriving DecidableEq

/-- Equality test against an optional previous cell (`prev_pos is not None
and nxt == prev_pos`). -/
def optEq (o : Option (Int × Int)) (p : Int × Int) : Bool :=
  match o with
  | some v => v == p
  | none => false

/-- The mover's remaining boosts as AgentW reads them (agentw.py:143). -/
def wBoostsLeft (state : Snapshot) : Nat :=
  if state.player_number = 1 then state.agent1_boosts else state.agent2_boosts

/-- The mover's head (agentw.py:139-140). -/
def wMyHead (state : Snapshot) : Option (Int × Int) :=
  if state.player_number = 1 then headFromTrail state.agent1_trail
  else headFromTrail state.agent2_trail

/-- The opponent's head (agentw.py:139-141). -/
def wOppHead (state : Snapshot) : Option (Int × Int) :=
  if state.player_number = 1 then headFromTrail state.agent2_trail
  else headFromTrail state.agent1_trail

/-- The candidate list of `AgentW.propose_moves` (agentw.py:147-163): per
direction a single-step candidate (dead when it enters the occupied set or
the mover's previous cell), plus — only while boosts remain — a two-step
boost candidate (dead when either the intermediate or the final cell is
occupied or the previous cell).  With no head every direction is offered
undead with no result cell. -/
def wCandList (state : Snapshot) : List WCandidate :=
  match wMyHead state with
  | none => W_DIR_NAMES.map fun d => ⟨d, none, false, false⟩
  | some mh =>
    W_DIR_NAMES.flatMap fun d =>
      let nxt := wSimulateStep mh d 1
      let dead_single := decide (nxt ∈ buildOccupiedSet state) ||
        optEq (lastPositions state).2 nxt
      let base := [WCandidate.mk d (some nxt) false dead_single]
      if 0 < wBoostsLeft state then
        let mid := wSimulateStep mh d 1
        let fin := wSimulateStep mh d 2
        let dead_boost := decide (mid ∈ buildOccupiedSet state) ||
          decide (fin ∈ buildOccupiedSet state) ||
          (optEq (lastPositions state).2 mid || optEq (lastPositions state).2 fin)
        base ++ [WCandidate.mk (d ++ ":BOOST") (some fin) true dead_boost]
      else base

/-- `AgentW.propose_moves` (agentw.py:136-164): the tuple
`(candidates, my_head, opp_head, occ, boosts_left)`. -/
def proposeMoves (state : Snapshot) :
    List WCandidate × Option (Int × Int) × Option (Int × Int) ×
      List (Int × Int) × Nat :=
  (wCandList state, wMyHead state, wOppHead state,
   buildOccupiedSet state, wBoostsLeft state)

/-- `AgentW.head_on_survivor` (agentw.py:167-172). -/
def headOnSurvivor (my_len opp_len : Nat) : String :=
  if opp_len < my_len then "ME" else if my_len < opp_len then "OPP" else "BOTH"

/-- Python `s.endswith(":BOOST")` over the character list. -/
def pyEndsWithBoost (s : String) : Bool :=
  decide (6 ≤ s.data.length) && (s.data.drop (s.data.length - 6) == ":BOOST".data)

/-- The re-formatting AgentW applies before returning a token
(agentw.py:202-206, 243-246): uppercase, and a boosted token is rebuilt as
`DIR:BOOST` from its first field (an identity on the tokens it builds). -/
def wFormatToken (sel : String) : String :=
  let s := pyUpper sel
  if pyEndsWithBoost s then ((pySplitColon s).headD "") ++ ":BOOST" else s

/-- A safe candidate of `AgentW.choose_action`: the tuple
`(move_str, result_cell, used_boost, headon_risk)` (agentw.py:197). -/
structure WSafe where
  move_str : String
  result_cell : Option (Int × Int)
  used_boost : Bool
  headon_risk : Bool
deriving DecidableEq

/-- A scored safe candidate of `AgentW.choose_action`: the tuple
`(area, headon_risk, used_boost, move_str)` (agentw.py:220). -/
structure WScored where
  area : Nat
  headon_risk : Bool
  used_boost : Bool
  move_str : String
deriving DecidableEq

/-- The descending stable ordering `sort(key=(area, -int(used_boost)),
reverse=True)` (agentw.py:222): `a` precedes `b` when its key is
lexicographically at least `b`'s (CPython's reverse sort is stable, keeping
original order on equal keys, exactly as a stable merge sort under this
relation does). -/
def wScoredLe (a b : WScored) : Bool :=
  decide (b.area < a.area ∨ (b.area = a.area ∧
    (if b.used_boost then (1 : Int) else 0) ≥ (if a.used_boost then (1 : Int) else 0)))

/-- The opponent's one-step reachable cells (agentw.py:181-184). -/
def wOppOneStep (opp_head : Option (Int × Int)) : List (Int × Int) :=
  match opp_head with
  | some oh => W_DIR_NAMES.map fun d => wSimulateStep oh d 1
  | none => []

/-- The head-on-risk flag of one safe candidate (agentw.py:190-196): the
result cell lies one opponent step away and the mover is not strictly
longer. -/
def wHeadonRisk (state : Snapshot) (opp1 : List (Int × Int))
    (c : WCandidate) : Bool :=
  match c.result_cell with
  | some rc =>
    if rc ∈ opp1 then
      let my_len := if state.player_number = 1 then state.agent1_length
        else state.agent2_length
      let opp_len := if state.player_number = 1 then state.agent2_length
        else state.agent1_length
      let surv := headOnSurvivor my_len opp_len
      surv == "OPP" || surv == "BOTH"
    else false
  | none => false

/-- The safe-candidate list of `AgentW.choose_action` (agentw.py:186-197):
dead candidates dropped, head-on risk annotated. -/
def wSafeOf (state : Snapshot) : List WSafe :=
  (wCandList state).filterMap fun c =>
    if c.dead then none
    else some ⟨c.move_str, c.result_cell, c.used_boost,
      wHeadonRisk state (wOppOneStep (wOppHead state)) c⟩

/-- Scoring of one safe candidate (agentw.py:209-220): flood-fill area from
the result cell with that cell (and, when boosted, the intermediate cell)
added to the occupied set. -/
def wScoreOne (state : Snapshot) (mh : Int × Int) (sc : WSafe) : WScored :=
  let occ2 := buildOccupiedSet state ++
    (match sc.result_cell with
     | some rc => [rc]
     | none => [])
  let occ3 :=
    if sc.used_boost then
      occ2 ++ [wSimulateStep mh ((pySplitColon sc.move_str).headD "") 1]
    else occ2
  let start_for_area :=
    match sc.result_cell with
    | some rc => some rc
    | none => some mh
  ⟨wFloodFillArea start_for_area occ3 360, sc.headon_risk, sc.used_boost, sc.move_str⟩

/-- The scored list after the descending stable sort (agentw.py:209-222). -/
def wSortedOf (state : Snapshot) (mh : Int × Int) : List WScored :=
  ((wSafeOf state).map (wScoreOne state mh)).mergeSort wScoredLe

/-- The selection among scored candidates (agentw.py:224-241): the best
boosted option must beat the best unboosted by the 1.30 threshold (or dodge
a head-on risk the unboosted one has); lacking one of the two, the first
risk-free entry, else the overall first. -/
def wChosen (sorted : List WScored) : String :=
  match sorted.find? (fun s => !s.used_boost), sorted.find? (fun s => s.used_boost) with
  | some nb, some bb =>
    if ((nb.area : ℚ) * (13/10) ≤ (bb.area : ℚ)) ∨ (nb.headon_risk ∧ !bb.headon_risk) then
      bb.move_str
    else nb.move_str
  | _, _ =>
    match sorted.find? (fun s => !s.headon_risk) with
    | some s => s.move_str
    | none => (sorted.headD ⟨0, false, false, "RIGHT"⟩).move_str

/-- `AgentW.choose_action` (agentw.py:175-247), with the two
`random.choice(DIR_NAMES)` draws modelled by the explicit index `rng`.
With no head a random direction; with no safe candidate the first undead
candidate (or a random direction); otherwise the formatted selection among
the sorted scored candidates. -/
def chooseActionW (state : Snapshot) (rng : Nat) : String :=
  match wMyHead state with
  | none => W_DIR_NAMES.getD (rng % 4) "UP"
  | some mh =>
    if (wSafeOf state).isEmpty then
      match (wCandList state).filter (fun c => !c.dead) with
      | [] => W_DIR_NAMES.getD (rng % 4) "UP"
      | c :: _ => wFormatToken c.move_str
    else wFormatToken (wChosen (wSortedOf state mh))

/-! ## agentc.py — AgentC -/

/-- The mutable fields of an `AgentC` instance (agentc.py:14-19).
`boost_threshold` is set to 1 in `__init__` and never reassigned;
`predicted_opponent_dir` is never written after `__init__` (it is dead
state). -/
structure CState where
  last_action : String
  current_direction : Int × Int
  boost_threshold : Nat
  last_opponent_pos : Option (Int × Int)
  predicted_opponent_dir : Option (Int × Int)
deriving DecidableEq

/-- The state `AgentC.__init__` builds (agentc.py:14-19). -/
def cInit : CState := ⟨"RIGHT", (1, 0), 1, none, none⟩

/-- The `directions`/`direction_map` dicts used throughout AgentC, in
insertion order (agentc.py:165-170, 224-229, ...). -/
def cDirections : List (String × (Int × Int)) :=
  [("UP", (0, -1)), ("DOWN", (0, 1)), ("LEFT", (-1, 0)), ("RIGHT", (1, 0))]

/-- `AgentC._predict_opponent_direction` (agentc.py:189-206): delta of the
last two trail cells, wrap-normalized to a unit step. -/
def cPredictOpponentDirection (opponent_trail : List (Int × Int)) :
    Option (Int × Int) :=
  if opponent_trail.length < 2 then none
  else
    let last_pos := opponent_trail.getD (opponent_trail.length - 1) (0, 0)
    let prev_pos := opponent_trail.getD (opponent_trail.length - 2) (0, 0)
    let dx0 := last_pos.1 - prev_pos.1
    let dy0 := last_pos.2 - prev_pos.2
    let dx := if 1 < abs dx0 then (if 0 < dx0 then -1 else 1) else dx0
    let dy := if 1 < abs dy0 then (if 0 < dy0 then -1 else 1) else dy0
    some (dx, dy)

/-- `AgentC._get_predicted_position` (agentc.py:208-216); the `%` can raise
on a zero-width/height board. -/
def cGetPredictedPosition (pos : Int × Int) (direction : Option (Int × Int))
    (width height : Nat) : Except String (Int × Int) :=
  match direction with
  | none => .ok pos
  | some d => do
    let nx ← pyMod (pos.1 + d.1) width
    let ny ← pyMod (pos.2 + d.2) height
    return (nx, ny)

/-- `AgentC._torus_distance` (agentc.py:578-586): min of direct and wrapped
axis distances (no modulus, so pure). -/
def cTorusDistance (pos1 pos2 : Int × Int) (width height : Nat) : Int :=
  min (abs (pos2.1 - pos1.1)) ((width : Int) - abs (pos2.1 - pos1.1)) +
  min (abs (pos2.2 - pos1.2)) ((height : Int) - abs (pos2.2 - pos1.2))

/-- `AgentC._is_opposite_direction` (agentc.py:537-541). -/
def cIsOppositeDirection (new_dir current_dir : Int × Int) : Bool :=
  new_dir == (-current_dir.1, -current_dir.2)

/-- The trailing board check of `_is_position_safe`:
`board[y][x] != 0 → unsafe` (agentc.py:572-576), with the unchecked indexing
made explicit. -/
def cBoardFreeCheck (pos : Int × Int) (board : List (List Nat)) :
    Except String Bool := do
  let row ← pyIndex board [] pos.2
  let cell ← pyIndex row 0 pos.1
  return decide (cell = 0)

/-- `AgentC._is_position_safe` (agentc.py:543-576).  Deployment note: at
runtime `pos in my_trail` compares a tuple against JSON-decoded list
elements and can never match; the faithful type-agnostic reading used here
is plain membership, and no claim settled below depends on this check. -/
def cIsPositionSafe (pos : Int × Int) (board : List (List Nat))
    (my_trail opp_trail : List (Int × Int)) (avoid_head_on : Bool) :
    Except String Bool :=
  if pos ∈ my_trail then .ok false
  else if 0 < opp_trail.length then
    let opponent_head := opp_trail.getD (opp_trail.length - 1) (0, 0)
    if pos = opponent_head then
      (if avoid_head_on then .ok false else .ok true)
    else if pos ∈ opp_trail then .ok false
    else cBoardFreeCheck pos board
  else cBoardFreeCheck pos board

/-- `AgentC._is_moving_toward_collision` (agentc.py:309-344). -/
def cIsMovingTowardCollision (my_new_pos opp_current_pos opp_predicted_pos : Int × Int)
    (width height : Nat) : Except String Bool := do
  let opts ← ([((0 : Int), (-1 : Int)), (0, 1), (-1, 0), (1, 0)]).mapM fun d => do
    let nx ← pyMod (opp_current_pos.1 + d.1) width
    let ny ← pyMod (opp_current_pos.2 + d.2) height
    return ((nx, ny) : Int × Int)
  if my_new_pos ∈ opts then return true
  else if my_new_pos = opp_predicted_pos then return true
  else if cTorusDistance my_new_pos opp_current_pos width height ≤ 1 then return true
  else if cTorusDistance my_new_pos opp_predicted_pos width height ≤ 1 then return true
  else return false

/-- `AgentC._is_on_collision_course` (agentc.py:346-355). -/
def cIsOnCollisionCourse (my_pos target_pos my_dir : Int × Int)
    (width height : Nat) : Except String Bool := do
  let nx ← pyMod (my_pos.1 + my_dir.1) width
  let ny ← pyMod (my_pos.2 + my_dir.2) height
  return decide (cTorusDistance (nx, ny) target_pos width height <
    cTorusDistance my_pos target_pos width height)

/-- The wrapped candidate cell `((my_pos+d) % (width,height))` every AgentC
strategy loop computes (agentc.py:242-244 and analogues). -/
def cInterceptCell (my_pos : Int × Int) (d : Int × Int) (width height : Nat) :
    Except String (Int × Int) := do
  let nx ← pyMod (my_pos.1 + d.1) width
  let ny ← pyMod (my_pos.2 + d.2) height
  return (nx, ny)

/-- The `avoid_head_on` skip checks of `_find_interception_move`
(agentc.py:246-261): the opponent head, its predicted cell, or any collision
path. -/
def cInterceptSkip (new_pos opp_pos predicted_opp_pos : Int × Int)
    (width height : Nat) (avoid_head_on : Bool) : Except String Bool :=
  if avoid_head_on then
    if new_pos = opp_pos then .ok true
    else if new_pos = predicted_opp_pos then .ok true
    else cIsMovingTowardCollision new_pos opp_pos predicted_opp_pos width height
  else .ok false

/-- The scoring of one interception candidate (agentc.py:270-300): distance
to the predicted cell with the player-specific adjustments. -/
def cInterceptScore (new_pos d opp_pos predicted_opp_pos : Int × Int)
    (width height : Nat) (avoid_head_on : Bool) : Except String Int :=
  let dist_to_predicted := cTorusDistance new_pos predicted_opp_pos width height
  let dist_to_current := cTorusDistance new_pos opp_pos width height
  let score0 := dist_to_predicted
  if avoid_head_on then
    if dist_to_current < 2 then .ok (score0 + 30)
    else if dist_to_current = 2 then .ok (score0 - 10)
    else if dist_to_current ≤ 4 then .ok (score0 - 5)
    else if 6 < dist_to_current then .ok (score0 + 5)
    else .ok score0
  else
    let score1 := if dist_to_current ≤ 2 then score0 - 10 else score0
    match cIsOnCollisionCourse new_pos predicted_opp_pos d width height with
    | .error e => .error e
    | .ok oncourse => .ok (if oncourse then score1 - 5 else score1)

/-- The per-direction body of `_find_interception_move` folded over the
direction dict (agentc.py:218-307): skip reversals; under `avoid_head_on`
skip the opponent's head, its predicted cell and any collision path; skip
unsafe cells; otherwise score by distance to the predicted cell with the
player-specific adjustments, strictly smaller scores winning.
`float('inf')` is the `none` initial best score. -/
def cInterceptGo (cur_dir : Int × Int) (my_pos opp_pos predicted_opp_pos : Int × Int)
    (board : List (List Nat)) (my_trail opp_trail : List (Int × Int))
    (height width : Nat) (avoid_head_on : Bool) :
    List (String × (Int × Int)) → Option String → Option Int →
    Except String (Option String)
  | [], best, _ => .ok best
  | (move_name, d) :: rest, best, best_score =>
    if cIsOppositeDirection d cur_dir then
      cInterceptGo cur_dir my_pos opp_pos predicted_opp_pos board my_trail
        opp_trail height width avoid_head_on rest best best_score
    else
      match cInterceptCell my_pos d width height with
      | .error e => .error e
      | .ok new_pos =>
        match cInterceptSkip new_pos opp_pos predicted_opp_pos width height avoid_head_on with
        | .error e => .error e
        | .ok skip1 =>
          if skip1 then
            cInterceptGo cur_dir my_pos opp_pos predicted_opp_pos board my_trail
              opp_trail height width avoid_head_on rest best best_score
          else
            match cIsPositionSafe new_pos board my_trail opp_trail avoid_head_on with
            | .error e => .error e
            | .ok safe =>
              if !safe then
                cInterceptGo cur_dir my_pos opp_pos predicted_opp_pos board my_trail
                  opp_trail height width avoid_head_on rest best best_score
              else
                match cInterceptScore new_pos d opp_pos predicted_opp_pos width height avoid_head_on with
                | .error e => .error e
                | .ok score =>
                  let better :=
                    match best_score with
                    | none => true
                    | some bs => decide (score < bs)
                  if better then
                    cInterceptGo cur_dir my_pos opp_pos predicted_opp_pos board my_trail
                      opp_trail height width avoid_head_on rest (some move_name) (some score)
                  else
                    cInterceptGo cur_dir my_pos opp_pos predicted_opp_pos board my_trail
                      opp_trail height width avoid_head_on rest best best_score

/-- `AgentC._find_interception_move` (agentc.py:218-307). -/
def cFindInterceptionMove (cur_dir : Int × Int)
    (my_pos opp_pos predicted_opp_pos : Int × Int) (board : List (List Nat))
    (my_trail opp_trail : List (Int × Int)) (height width : Nat)
    (avoid_head_on : Bool) : Except String (Option String) :=
  cInterceptGo cur_dir my_pos opp_pos predicted_opp_pos board my_trail
    opp_trail height width avoid_head_on cDirections none none

/-- The scoring of one chase candidate (agentc.py:390-402): distance to the
opponent, with player 2's safe-distance shaping. -/
def cChaseScore (distance : Int) (avoid_head_on : Bool) : Int :=
  if avoid_head_on then
    if distance < 2 then distance + 10
    else if 2 ≤ distance ∧ distance ≤ 4 then distance - 5
    else distance
  else distance

/-- The per-direction body of `_find_aggressive_chase`
(agentc.py:357-408). -/
def cChaseGo (cur_dir : Int × Int) (my_pos opp_pos predicted_opp_pos : Int × Int)
    (board : List (List Nat)) (my_trail opp_trail : List (Int × Int))
    (height width : Nat) (avoid_head_on : Bool) :
    List (String × (Int × Int)) → Option String → Option Int →
    Except String (Option String)
  | [], best, _ => .ok best
  | (move_name, d) :: rest, best, best_score =>
    if cIsOppositeDirection d cur_dir then
      cChaseGo cur_dir my_pos opp_pos predicted_opp_pos board my_trail
        opp_trail height width avoid_head_on rest best best_score
    else
      match cInterceptCell my_pos d width height with
      | .error e => .error e
      | .ok new_pos =>
        match (if avoid_head_on then
            cIsMovingTowardCollision new_pos opp_pos predicted_opp_pos width height
          else .ok false) with
        | .error e => .error e
        | .ok skip1 =>
          if skip1 then
            cChaseGo cur_dir my_pos opp_pos predicted_opp_pos board my_trail
              opp_trail height width avoid_head_on rest best best_score
          else
            match cIsPositionSafe new_pos board my_trail opp_trail avoid_head_on with
            | .error e => .error e
            | .ok safe =>
              if !safe then
                cChaseGo cur_dir my_pos opp_pos predicted_opp_pos board my_trail
                  opp_trail height width avoid_head_on rest best best_score
              else
                let score := cChaseScore (cTorusDistance new_pos opp_pos width height)
                  avoid_head_on
                let better :=
                  match best_score with
                  | none => true
                  | some bs => decide (score < bs)
                if better then
                  cChaseGo cur_dir my_pos opp_pos predicted_opp_pos board my_trail
                    opp_trail height width avoid_head_on rest (some move_name) (some score)
                else
                  cChaseGo cur_dir my_pos opp_pos predicted_opp_pos board my_trail
                    opp_trail height width avoid_head_on rest best best_score

/-- `AgentC._find_aggressive_chase` (agentc.py:357-408), which re-derives
the opponent's predicted position itself. -/
def cFindAggressiveChase (cur_dir : Int × Int) (my_pos opp_pos : Int × Int)
    (board : List (List Nat)) (my_trail opp_trail : List (Int × Int))
    (height width : Nat) (avoid_head_on : Bool) :
    Except String (Option String) :=
  match cGetPredictedPosition opp_pos (cPredictOpponentDirection opp_trail)
      width height with
  | .error e => .error e
  | .ok predicted_opp_pos =>
    cChaseGo cur_dir my_pos opp_pos predicted_opp_pos board my_trail opp_trail
      height width avoid_head_on cDirections none none

/-- The neighbour scan of `_calculate_available_space` (agentc.py:502-512):
each unvisited wrapped neighbour is marked visited, and queued when it is in
neither trail and its (unchecked) board cell is 0. -/
def cSpaceNbrs (board : List (List Nat)) (my_trail opp_trail : List (Int × Int))
    (height width : Nat) (pos : Int × Int) (depth : Nat) :
    List (Int × Int) → List ((Int × Int) × Nat) → List (Int × Int) →
    Except String (List ((Int × Int) × Nat) × List (Int × Int))
  | [], q, visited => .ok (q, visited)
  | d :: rest, q, visited => do
    let nx ← pyMod (pos.1 + d.1) width
    let ny ← pyMod (pos.2 + d.2) height
    let new_pos := (nx, ny)
    if new_pos ∈ visited then
      cSpaceNbrs board my_trail opp_trail height width pos depth rest q visited
    else
      let v2 := visited ++ [new_pos]
      if new_pos ∉ my_trail ∧ new_pos ∉ opp_trail then do
        let row ← pyIndex board [] ny
        let cell ← pyIndex row 0 nx
        if cell = 0 then
          cSpaceNbrs board my_trail opp_trail height width pos depth rest
            (q ++ [(new_pos, depth + 1)]) v2
        else
          cSpaceNbrs board my_trail opp_trail height width pos depth rest q v2
      else
        cSpaceNbrs board my_trail opp_trail height width pos depth rest q v2

/-- The `while queue and space_count < max_depth` loop of
`_calculate_available_space` (agentc.py:494-512), fuelled.  An entry at
depth ≥ max_depth is popped without being counted (`continue`); the fuel
`width*height + max_depth + 2` covers every run (each wrapped cell is
visited at most once); no claim below depends on this value, it only feeds
AgentC's defensive ranking. -/
def cSpaceGo (board : List (List Nat)) (my_trail opp_trail : List (Int × Int))
    (height width max_depth : Nat) :
    Nat → List ((Int × Int) × Nat) → List (Int × Int) → Nat →
    Except String Nat
  | 0, _, _, space_count => .ok space_count
  | fuel + 1, queue, visited, space_count =>
    match queue with
    | [] => .ok space_count
    | (pos, depth) :: qrest =>
      if space_count < max_depth then
        if max_depth ≤ depth then
          cSpaceGo board my_trail opp_trail height width max_depth fuel qrest
            visited space_count
        else
          match cSpaceNbrs board my_trail opp_trail height width pos depth
              [((0 : Int), (-1 : Int)), (0, 1), (-1, 0), (1, 0)] qrest visited with
          | .error e => .error e
          | .ok pr =>
            cSpaceGo board my_trail opp_trail height width max_depth fuel pr.1
              pr.2 (space_count + 1)
      else .ok space_count

/-- `AgentC._calculate_available_space` (agentc.py:480-514), `max_depth`
defaulting to 15.  Everything in the source after its `return space_count`
(lines 515-535) is dead code inside this method — the would-be
`_find_safe_move` body, swallowed by the preceding `return`; the class
therefore has no `_find_safe_move` attribute. -/
def cCalculateAvailableSpace (start_pos : Int × Int) (board : List (List Nat))
    (my_trail opp_trail : List (Int × Int)) (height width : Nat) :
    Except String Nat :=
  cSpaceGo board my_trail opp_trail height width 15 (width * height + 17)
    [(start_pos, 0)] [start_pos] 0

/-- The per-direction body of `_find_space_control_move`
(agentc.py:410-445). -/
def cSpaceControlGo (cur_dir : Int × Int) (my_pos : Int × Int)
    (board : List (List Nat)) (my_trail opp_trail : List (Int × Int))
    (height width : Nat) (avoid_head_on : Bool) :
    List (String × (Int × Int)) → Option String → Int →
    Except String (Option String)
  | [], best, _ => .ok best
  | (move_name, d) :: rest, best, best_space =>
    if cIsOppositeDirection d cur_dir then
      cSpaceControlGo cur_dir my_pos board my_trail opp_trail height width
        avoid_head_on rest best best_space
    else
      match cInterceptCell my_pos d width height with
      | .error e => .error e
      | .ok new_pos =>
        match cIsPositionSafe new_pos board my_trail opp_trail avoid_head_on with
        | .error e => .error e
        | .ok safe =>
          if !safe then
            cSpaceControlGo cur_dir my_pos board my_trail opp_trail height width
              avoid_head_on rest best best_space
          else
            match cCalculateAvailableSpace new_pos board my_trail opp_trail
                height width with
            | .error e => .error e
            | .ok available_space =>
              if best_space < (available_space : Int) then
                cSpaceControlGo cur_dir my_pos board my_trail opp_trail height width
                  avoid_head_on rest (some move_name) (available_space : Int)
              else
                cSpaceControlGo cur_dir my_pos board my_trail opp_trail height width
                  avoid_head_on rest best best_space

/-- `AgentC._find_space_control_move` (agentc.py:410-445); `best_space`
starts at -1. -/
def cFindSpaceControlMove (cur_dir : Int × Int) (my_pos : Int × Int)
    (board : List (List Nat)) (my_trail opp_trail : List (Int × Int))
    (height width : Nat) (avoid_head_on : Bool) :
    Except String (Option String) :=
  cSpaceControlGo cur_dir my_pos board my_trail opp_trail height width
    avoid_head_on cDirections none (-1)

/-- The per-direction body of `_find_evasive_move` (agentc.py:447-478);
`best_distance` starts at -1 and strictly larger distances win. -/
def cEvasiveGo (cur_dir : Int × Int) (my_pos opp_pos : Int × Int)
    (board : List (List Nat)) (my_trail opp_trail : List (Int × Int))
    (height width : Nat) (avoid_head_on : Bool) :
    List (String × (Int × Int)) → Option String → Int →
    Except String (Option String)
  | [], best, _ => .ok best
  | (move_name, d) :: rest, best, best_distance =>
    if cIsOppositeDirection d cur_dir then
      cEvasiveGo cur_dir my_pos opp_pos board my_trail opp_trail height width
        avoid_head_on rest best best_distance
    else
      match cInterceptCell my_pos d width height with
      | .error e => .error e
      | .ok new_pos =>
        match cIsPositionSafe new_pos board my_trail opp_trail avoid_head_on with
        | .error e => .error e
        | .ok safe =>
          if !safe then
            cEvasiveGo cur_dir my_pos opp_pos board my_trail opp_trail height width
              avoid_head_on rest best best_distance
          else
            let distance := cTorusDistance new_pos opp_pos width height
            if best_distance < distance then
              cEvasiveGo cur_dir my_pos opp_pos board my_trail opp_trail height
                width avoid_head_on rest (some move_name) distance
            else
              cEvasiveGo cur_dir my_pos opp_pos board my_trail opp_trail height
                width avoid_head_on rest best best_distance

/-- `AgentC._find_evasive_move` (agentc.py:447-478). -/
def cFindEvasiveMove (cur_dir : Int × Int) (my_pos opp_pos : Int × Int)
    (board : List (List Nat)) (my_trail opp_trail : List (Int × Int))
    (height width : Nat) (avoid_head_on : Bool) :
    Except String (Option String) :=
  cEvasiveGo cur_dir my_pos opp_pos board my_trail opp_trail height width
    avoid_head_on cDirections none (-1)

/-- `AgentC._should_boost_for_collision` (agentc.py:588-631); the unused
`board`/trail parameters of the source are omitted. -/
def cShouldBoostForCollision (boost_threshold : Nat)
    (my_pos opp_pos predicted_opp_pos : Int × Int) (my_boosts : Nat)
    (height width turn_count : Nat) (should_be_aggressive : Bool) : Bool :=
  if my_boosts ≤ boost_threshold then false
  else
    let dist_to_opp := cTorusDistance my_pos opp_pos width height
    let dist_to_predicted := cTorusDistance my_pos predicted_opp_pos width height
    if should_be_aggressive then
      if 2 ≤ dist_to_opp ∧ dist_to_opp ≤ 4 then true
      else if dist_to_predicted ≤ 3 ∧ dist_to_opp ≤ 6 then true
      else if turn_count < 50 ∧ dist_to_opp ≤ 8 ∧ 2 < my_boosts then true
      else if 50 ≤ turn_count ∧ turn_count < 120 ∧ dist_to_opp ≤ 5 ∧ 1 < my_boosts then true
      else if 120 ≤ turn_count ∧ my_boosts = 2 ∧ dist_to_opp ≤ 3 then true
      else false
    else
      if dist_to_opp ≤ 3 ∧ 2 < my_boosts then true else false

/-- The Python-truthiness test of the board in `AgentC.choose_action` line
74: `not board` for `None` or `[]`. -/
def boardFalsy : Option (List (List Nat)) → Bool
  | none => true
  | some b => b.isEmpty

/-- The fallback token AgentC returns from its missing-data and exception
paths (agentc.py:76,187): the stored last action if it is a well-formed
action, else "RIGHT". -/
def cFallback (st : CState) : String :=
  if st.last_action ∈ ACTIONS then st.last_action else "RIGHT"

/-- The strategy-selection core of `AgentC.choose_action` (agentc.py:96-135)
from the point where data is known present: interception then chase when the
mover's trail is strictly longer, space control then evasion otherwise. -/
def cBestMove (st : CState) (board : List (List Nat))
    (my_head opponent_head predicted_opp_pos : Int × Int)
    (my_trail opponent_trail : List (Int × Int)) (height width : Nat)
    (should_be_aggressive avoid_head_on : Bool) :
    Except String (Option String) :=
  if should_be_aggressive then
    match cFindInterceptionMove st.current_direction my_head opponent_head
        predicted_opp_pos board my_trail opponent_trail height width
        avoid_head_on with
    | .error e => .error e
    | .ok (some m) => .ok (some m)
    | .ok none =>
      cFindAggressiveChase st.current_direction my_head opponent_head board
        my_trail opponent_trail height width avoid_head_on
  else
    match cFindSpaceControlMove st.current_direction my_head board my_trail
        opponent_trail height width avoid_head_on with
    | .error e => .error e
    | .ok (some m) => .ok (some m)
    | .ok none =>
      cFindEvasiveMove st.current_direction my_head opponent_head board
        my_trail opponent_trail height width avoid_head_on

/-- The mover's trail as `AgentC.choose_action` reads it (agentc.py:31-42). -/
def cMyTrail (gs : Snapshot) : List (Int × Int) :=
  if gs.player_number = 1 then gs.agent1_trail else gs.agent2_trail

/-- The opponent's trail (agentc.py:31-42). -/
def cOppTrail (gs : Snapshot) : List (Int × Int) :=
  if gs.player_number = 1 then gs.agent2_trail else gs.agent1_trail

/-- The mover's boost count (agentc.py:34,40). -/
def cMyBoosts (gs : Snapshot) : Nat :=
  if gs.player_number = 1 then gs.agent1_boosts else gs.agent2_boosts

/-- The mover's trail length field (agentc.py:35,41). -/
def cMyLength (gs : Snapshot) : Nat :=
  if gs.player_number = 1 then gs.agent1_length else gs.agent2_length

/-- The opponent's trail length field (agentc.py:36,42). -/
def cOppLength (gs : Snapshot) : Nat :=
  if gs.player_number = 1 then gs.agent2_length else gs.agent1_length

/-- `should_be_aggressive = my_length > opponent_length` (agentc.py:47). -/
def cAggressive (gs : Snapshot) : Bool := decide (cOppLength gs < cMyLength gs)

/-- `avoid_head_on = (player_number == 2)` (agentc.py:50). -/
def cAvoidHeadOn (gs : Snapshot) : Bool := decide (gs.player_number = 2)

/-- The board on the main path (present and truthy there). -/
def cBoard (gs : Snapshot) : List (List Nat) := (gs.board).getD []

/-- `height = len(board)` (agentc.py:85). -/
def cHeight (gs : Snapshot) : Nat := (cBoard gs).length

/-- `width = len(board[0]) if height > 0 else 0` (agentc.py:86). -/
def cWidth (gs : Snapshot) : Nat :=
  if 0 < cHeight gs then ((cBoard gs).headD []).length else 0

/-- `my_head = tuple(my_trail[-1])` (agentc.py:79). -/
def cMyHead (gs : Snapshot) : Int × Int :=
  (cMyTrail gs).getD ((cMyTrail gs).length - 1) (0, 0)

/-- `opponent_head = tuple(opponent_trail[-1])` (agentc.py:80). -/
def cOppHead (gs : Snapshot) : Int × Int :=
  (cOppTrail gs).getD ((cOppTrail gs).length - 1) (0, 0)

/-- The current-direction update from the mover's trail (agentc.py:57-72):
with at least two trail cells the wrap-normalized delta of the last two is
stored in `self.current_direction`. -/
def cDirUpdate (st : CState) (my_trail : List (Int × Int)) : CState :=
  if 2 ≤ my_trail.length then
    let last_pos := my_trail.getD (my_trail.length - 1) (0, 0)
    let prev_pos := my_trail.getD (my_trail.length - 2) (0, 0)
    let dx0 := last_pos.1 - prev_pos.1
    let dy0 := last_pos.2 - prev_pos.2
    let dx := if 1 < abs dx0 then (if 0 < dx0 then -1 else 1) else dx0
    let dy := if 1 < abs dy0 then (if 0 < dy0 then -1 else 1) else dy0
    { st with current_direction := (dx, dy) }
  else st

/-- The action AgentC assembles from the chosen move and the boost decision
(agentc.py:146-158). -/
def cAction (st1 : CState) (gs : Snapshot) (predicted_opp_pos : Int × Int)
    (best_move : String) : String :=
  if cShouldBoostForCollision st1.boost_threshold (cMyHead gs) (cOppHead gs)
      predicted_opp_pos (cMyBoosts gs) (cHeight gs) (cWidth gs) gs.turn_count
      (cAggressive gs) = true ∧ st1.boost_threshold < cMyBoosts gs then
    best_move ++ ":BOOST"
  else best_move

/-- The action-validation fallback `if action not in ACTIONS: action =
best_move` (agentc.py:161-162). -/
def cAction2 (st1 : CState) (gs : Snapshot) (predicted_opp_pos : Int × Int)
    (best_move : String) : String :=
  if cAction st1 gs predicted_opp_pos best_move ∈ ACTIONS then
    cAction st1 gs predicted_opp_pos best_move
  else best_move

/-- The state mutations of the successful tail of `choose_action`
(agentc.py:164-178): `current_direction` from the action's base direction,
`last_action`, `last_opponent_pos`. -/
def cPostState (st1 : CState) (gs : Snapshot) (predicted_opp_pos : Int × Int)
    (best_move : String) : CState :=
  let action2 := cAction2 st1 gs predicted_opp_pos best_move
  let base_direction := (pySplitColon action2).headD ""
  let st2 :=
    if base_direction ∈ ["UP", "DOWN", "LEFT", "RIGHT"] then
      { st1 with current_direction := (cDirections.lookup base_direction).getD (1, 0) }
    else st1
  { st2 with
    last_action := action2
    last_opponent_pos := some (cOppHead gs) }

/-- The data-present path of `AgentC.choose_action` (agentc.py:79-181):
predict the opponent, pick a strategy move, and when every strategy returns
None call the missing `_find_safe_move` — an AttributeError (agentc.py:130-135;
the would-be method body sits as dead code after `_calculate_available_space`'s
return, so the class has no such attribute and lines 137-143 are
unreachable). -/
def cMainPath (st1 : CState) (gs : Snapshot) : CState × Except String String :=
  match cGetPredictedPosition (cOppHead gs)
      (cPredictOpponentDirection (cOppTrail gs)) (cWidth gs) (cHeight gs) with
  | .error e => (st1, .error e)
  | .ok predicted_opp_pos =>
    match cBestMove st1 (cBoard gs) (cMyHead gs) (cOppHead gs)
        predicted_opp_pos (cMyTrail gs) (cOppTrail gs) (cHeight gs)
        (cWidth gs) (cAggressive gs) (cAvoidHeadOn gs) with
    | .error e => (st1, .error e)
    | .ok none => (st1, .error "AttributeError")
    | .ok (some best_move) =>
      (cPostState st1 gs predicted_opp_pos best_move,
       .ok (cAction2 st1 gs predicted_opp_pos best_move))

/-- The `try:` body of `AgentC.choose_action` (agentc.py:23-181), threading
the object state: the returned state carries every `self` mutation made up
to the return or the raise.  When the mover's trail has at least two cells
but the board key is absent, `height = len(board)` at line 65 raises
TypeError before the direction is stored; with any of trail/opponent
trail/board falsy the stored last action is replayed (line 74-76); else the
main strategy path runs. -/
def cTryBody (st : CState) (gs : Snapshot) : CState × Except String String :=
  if 2 ≤ (cMyTrail gs).length ∧ gs.board = none then (st, .error "TypeError")
  else if (cMyTrail gs).isEmpty ∨ (cOppTrail gs).isEmpty ∨ boardFalsy gs.board then
    (cDirUpdate st (cMyTrail gs), .ok (cFallback (cDirUpdate st (cMyTrail gs))))
  else cMainPath (cDirUpdate st (cMyTrail gs)) gs

/-- `AgentC.choose_action` (agentc.py:22-187): the `try` body with its
catch-all `except` (lines 183-187), which returns the stored last action (or
"RIGHT") and keeps whatever state mutations had already happened. -/
def chooseActionC (st : CState) (gs : Snapshot) : CState × String :=
  match cTryBody st gs with
  | (st2, .ok a) => (st2, a)
  | (st2, .error _) => (st2, cFallback st2)

/-! ## Helper lemmas about the orchestrator -/

/-- A falsy fetch contributes nothing to the retry loop. -/
theorem truthyFetch_eq_none {a : FetchResult} (h : a.isTruthy = false) :
    truthyFetch a = none := by
  cases a with
  | fail => rfl
  | got m =>
    simp only [FetchResult.isTruthy] at h
    simp [truthyFetch, h]

/-- If both fetch attempts are falsy the retry loop validates nothing. -/
theorem firstTruthyFetch_eq_none {a1 a2 : FetchResult}
    (h1 : a1.isTruthy = false) (h2 : a2.isTruthy = false) :
    firstTruthyFetch a1 a2 = none := by
  simp [firstTruthyFetch, truthyFetch_eq_none h1, truthyFetch_eq_none h2]

/-- The reverse direction's unit step is the negation of the original's. -/
theorem oppositeDir_value (c : Direction) :
    (oppositeDir c).value = (-c.value.1, -c.value.2) := by
  cases c <;> rfl

/-- Definitional unfolding of `handle_move` on a string token. -/
theorem handle_move_str (s : String) (cur : Direction) :
    handle_move (.str s) cur =
      match direction_map ((pySplitColon (pyUpper s)).headD "") with
      | none => .forfeit
      | some direction =>
        if direction.value = (-cur.value.1, -cur.value.2) then
          .valid (parse_boost_flag s) cur
        else
          .valid (parse_boost_flag s) direction := rfl

/-- With both attempts exhausted and no allowance left, acquisition forfeits. -/
theorem acquireMove_forfeit {a1 a2 : FetchResult} {cur : Direction} {rng : Nat}
    (h1 : a1.isTruthy = false) (h2 : a2.isTruthy = false) :
    acquireMove a1 a2 cur 0 rng = .forfeitOut := by
  simp [acquireMove, firstTruthyFetch_eq_none h1 h2]

/-- A canonical direction token always validates as a non-boosted move:
the direction itself unless it reverses the current one, which is replaced. -/
theorem handle_move_dir_token (d cur : Direction) :
    handle_move (.str (dir_to_str d)) cur =
      .valid false (if d = oppositeDir cur then cur else d) := by
  cases d <;> cases cur <;> decide

/-- Acquisition from a first attempt carrying a canonical direction token:
some validated non-boosted move comes back and the allowance is untouched. -/
theorem acquireMove_dir_token (a2 : FetchResult) (cur : Direction) (r rng : Nat)
    (d : Direction) :
    ∃ v b, acquireMove (.got (.str (dir_to_str d))) a2 cur r rng = .move v b r false := by
  refine ⟨if d = oppositeDir cur then cur else d, false, ?_⟩
  have hne : ((dir_to_str d) == "") = false := by cases d <;> decide
  have hft : firstTruthyFetch (.got (.str (dir_to_str d))) a2 = some (.str (dir_to_str d)) := by
    simp [firstTruthyFetch, truthyFetch, MoveVal.isTruthy, hne]
  simp [acquireMove, hft, handle_move_dir_token]

/-! ## Helper lemmas about the flood fill -/

/-- A cell whose stored value is nonzero is not free. -/
theorem is_cell_free_of_occupied {board : List (List Nat)} {start : Int × Int}
    (h : (board.getD start.2.toNat []).getD start.1.toNat 0 ≠ 0) :
    is_cell_free board start = false := by
  have hb : ((board.getD start.2.toNat []).getD start.1.toNat 0 == 0) = false := by
    simpa using h
  unfold is_cell_free
  rw [hb, Bool.and_false]

/-- With a limit `l`, one inner-loop pass keeps a below-threshold seen count
below threshold, and any early return is at most `max l 2` (the count steps
by 1 and is checked right after each step; only the unchecked initial count
of 1 lets it overshoot a limit of 0 or 1, by at most reaching 2). -/
theorem floodNeighbors_limit_bound (board : List (List Nat)) (l : Nat) :
    ∀ (ns q seen : List (Int × Int)), seen.length ≤ max (l - 1) 1 →
      (∀ q2 seen2, floodNeighbors board (some l) ns q seen = .inl (q2, seen2) →
        seen2.length ≤ max (l - 1) 1) ∧
      (∀ c, floodNeighbors board (some l) ns q seen = .inr c → c ≤ max l 2) := by
  intro ns
  induction ns with
  | nil =>
    intro q seen hs
    refine ⟨fun q2 seen2 h => ?_, fun c h => ?_⟩
    · simp only [floodNeighbors] at h
      cases h
      exact hs
    · simp only [floodNeighbors] at h
      exact Sum.noConfusion h
  | cons n rest ih =>
    intro q seen hs
    by_cases hc : n ∉ seen ∧ is_cell_free board n = true
    · by_cases hl : l ≤ (seen ++ [n]).length
      · refine ⟨fun q2 seen2 h => ?_, fun c h => ?_⟩
        · simp only [floodNeighbors, if_pos hc, if_pos hl] at h
          exact Sum.noConfusion h
        · simp only [floodNeighbors, if_pos hc, if_pos hl] at h
          cases h
          simp only [List.length_append, List.length_singleton] at hl ⊢
          omega
      · have hs2 : (seen ++ [n]).length ≤ max (l - 1) 1 := by
          simp only [List.length_append, List.length_singleton] at hl ⊢
          omega
        refine ⟨fun q2 seen2 h => ?_, fun c h => ?_⟩
        · simp only [floodNeighbors, if_pos hc, if_neg hl] at h
          exact (ih (q ++ [n]) (seen ++ [n]) hs2).1 q2 seen2 h
        · simp only [floodNeighbors, if_pos hc, if_neg hl] at h
          exact (ih (q ++ [n]) (seen ++ [n]) hs2).2 c h
    · refine ⟨fun q2 seen2 h => ?_, fun c h => ?_⟩
      · simp only [floodNeighbors, if_neg hc] at h
        exact (ih q seen hs).1 q2 seen2 h
      · simp only [floodNeighbors, if_neg hc] at h
        exact (ih q seen hs).2 c h

/-- The limit bound carried through the whole worklist loop. -/
theorem floodLoop_limit_bound (board : List (List Nat)) (W H l : Nat) :
    ∀ (fuel : Nat) (q seen : List (Int × Int)), seen.length ≤ max (l - 1) 1 →
      (∀ seen2, floodLoop board W H (some l) fuel q seen = .inl seen2 →
        seen2.length ≤ max (l - 1) 1) ∧
      (∀ c, floodLoop board W H (some l) fuel q seen = .inr c → c ≤ max l 2) := by
  intro fuel
  induction fuel with
  | zero =>
    intro q seen hs
    refine ⟨fun seen2 h => ?_, fun c h => ?_⟩
    · simp only [floodLoop] at h
      cases h
      exact hs
    · simp only [floodLoop] at h
      exact Sum.noConfusion h
  | succ m ih =>
    intro q seen hs
    cases q with
    | nil =>
      refine ⟨fun seen2 h => ?_, fun c h => ?_⟩
      · simp only [floodLoop] at h
        cases h
        exact hs
      · simp only [floodLoop] at h
        exact Sum.noConfusion h
    | cons v qrest =>
      have hfn := floodNeighbors_limit_bound board l (neighborsList v W H) qrest seen hs
      refine ⟨fun seen2 h => ?_, fun c h => ?_⟩
      · simp only [floodLoop] at h
        cases hr : floodNeighbors board (some l) (neighborsList v W H) qrest seen with
        | inl pr =>
          rw [hr] at h
          exact (ih pr.1 pr.2 (hfn.1 pr.1 pr.2 (by rw [hr]))).1 seen2 h
        | inr c2 =>
          rw [hr] at h
          exact Sum.noConfusion h
      · simp only [floodLoop] at h
        cases hr : floodNeighbors board (some l) (neighborsList v W H) qrest seen with
        | inl pr =>
          rw [hr] at h
          exact (ih pr.1 pr.2 (hfn.1 pr.1 pr.2 (by rw [hr]))).2 c h
        | inr c2 =>
          rw [hr] at h
          injection h with hh
          subst hh
          exact hfn.2 _ hr

/-- The flood-fill count with limit `l` never exceeds `max l 2` (and hence
never exceeds `l` itself whenever `l ≥ 2`). -/
theorem flood_fill_count_le (board : List (List Nat)) (start : Int × Int)
    (W H l : Nat) : flood_fill_count board start W H (some l) ≤ max l 2 := by
  unfold flood_fill_count
  split
  · have hinit : ([start] : List (Int × Int)).length ≤ max (l - 1) 1 := by
      simp
    have h := floodLoop_limit_bound board W H l (W * H + 1) [start] [start] hinit
    cases hr : floodLoop board W H (some l) (W * H + 1) [start] [start] with
    | inl seen =>
      have h2 := h.1 seen hr
      show seen.length ≤ max l 2
      omega
    | inr c =>
      show c ≤ max l 2
      exact h.2 c hr
  · exact Nat.zero_le _

/-- Constructor form of `inRangeCell` from natural coordinates. -/
theorem inRangeCell_mk {W H : Nat} (a b : Nat) (ha : a < W) (hb : b < H) :
    inRangeCell W H ((a : Int), (b : Int)) := by
  refine ⟨?_, ?_, ?_, ?_⟩
  · show (0 : Int) ≤ (a : Int)
    positivity
  · show (a : Int) < (W : Int)
    exact_mod_cast ha
  · show (0 : Int) ≤ (b : Int)
    positivity
  · show (b : Int) < (H : Int)
    exact_mod_cast hb

/-- The in-range integer cells of a W×H grid, as the image of
`range W ×ˢ range H` under the (injective) coordinatewise cast. -/
theorem gridFinset_spec (W H : Nat) :
    ∃ g : Finset (Int × Int), g.card = W * H ∧
      ∀ p : Int × Int, p ∈ g ↔ inRangeCell W H p := by
  refine ⟨(Finset.range W ×ˢ Finset.range H).map
    ⟨fun q => ((q.1 : Int), (q.2 : Int)), ?_⟩, ?_, ?_⟩
  · intro a b h
    simp only [Prod.mk.injEq, Nat.cast_inj] at h
    exact Prod.ext h.1 h.2
  · simp [Finset.card_map, Finset.card_product]
  · intro p
    constructor
    · intro hp
      simp only [Finset.mem_map, Finset.mem_product, Finset.mem_range,
        Function.Embedding.coeFn_mk] at hp
      obtain ⟨q, ⟨hq1, hq2⟩, heq⟩ := hp
      subst heq
      exact inRangeCell_mk q.1 q.2 hq1 hq2
    · intro hp
      obtain ⟨h1, h2, h3, h4⟩ := hp
      simp only [Finset.mem_map, Finset.mem_product, Finset.mem_range,
        Function.Embedding.coeFn_mk]
      exact ⟨(p.1.toNat, p.2.toNat), ⟨by omega, by omega⟩, by
        simp only []
        refine Prod.ext ?_ ?_ <;> simp <;> omega⟩

/-- A duplicate-free list of in-range cells has at most W*H entries. -/
theorem nodup_inRange_length_le (W H : Nat) (l : List (Int × Int))
    (hnd : l.Nodup) (hin : ∀ p, p ∈ l → inRangeCell W H p) :
    l.length ≤ W * H := by
  classical
  obtain ⟨g, hcard, hmem⟩ := gridFinset_spec W H
  have h1 : l.toFinset.card = l.length := List.toFinset_card_of_nodup hnd
  have h2 : l.toFinset ⊆ g := by
    intro p hp
    exact (hmem p).mpr (hin p (List.mem_toFinset.mp hp))
  have h3 := Finset.card_le_card h2
  omega

/-- A duplicate-free list containing exactly the in-range cells has exactly
W*H entries. -/
theorem nodup_inRange_cover_length (W H : Nat) (l : List (Int × Int))
    (hnd : l.Nodup) (hin : ∀ p, p ∈ l → inRangeCell W H p)
    (hcov : ∀ p, inRangeCell W H p → p ∈ l) :
    l.length = W * H := by
  classical
  obtain ⟨g, hcard, hmem⟩ := gridFinset_spec W H
  have h1 : l.toFinset.card = l.length := List.toFinset_card_of_nodup hnd
  have h2 : l.toFinset = g := by
    apply Finset.ext
    intro p
    constructor
    · intro hp
      exact (hmem p).mpr (hin p (List.mem_toFinset.mp hp))
    · intro hp
      exact List.mem_toFinset.mpr (hcov p ((hmem p).mp hp))
  rw [h2, hcard] at h1
  omega

/-- Behaviour of one limit-free inner-loop pass: existence of the resulting
queue/seen pair together with every bookkeeping fact the worklist induction
needs (growth, nodup preservation, provenance of new cells, queue/seen
membership exchange, coverage of the processed neighbour list, and the
queue/seen length balance). -/
theorem floodNeighbors_none_spec (board : List (List Nat)) :
    ∀ (ns q seen : List (Int × Int)), ∃ q2 seen2,
      floodNeighbors board none ns q seen = .inl (q2, seen2) ∧
      (∀ p, p ∈ seen → p ∈ seen2) ∧
      (seen.Nodup → seen2.Nodup) ∧
      (∀ p, p ∈ seen2 → p ∈ seen ∨ (p ∈ ns ∧ is_cell_free board p = true)) ∧
      (∀ p, p ∈ seen2 → p ∈ seen ∨ p ∈ q2) ∧
      (∀ n, n ∈ ns → is_cell_free board n = true → n ∈ seen2) ∧
      (∀ p, p ∈ q2 → p ∈ q ∨ p ∈ seen2) ∧
      (∀ p, p ∈ q → p ∈ q2) ∧
      q2.length + seen.length = q.length + seen2.length ∧
      seen.length ≤ seen2.length := by
  intro ns
  induction ns with
  | nil =>
    intro q seen
    exact ⟨q, seen, rfl, fun p hp => hp, fun h => h, fun p hp => Or.inl hp,
      fun p hp => Or.inl hp, by intro m hm _; simp at hm,
      fun p hp => Or.inl hp, fun p hp => hp, rfl, Nat.le_refl _⟩
  | cons n rest ih =>
    intro q seen
    by_cases hc : n ∉ seen ∧ is_cell_free board n = true
    · obtain ⟨q2, seen2, heq, hsub, hnd, hnew, hs2q, hcov, hq2, hqsub, hlen, hmono⟩ :=
        ih (q ++ [n]) (seen ++ [n])
      have hnmem : n ∈ seen ++ [n] := List.mem_append_right _ (by simp)
      refine ⟨q2, seen2, ?_, ?_, ?_, ?_, ?_, ?_, ?_, ?_, ?_, ?_⟩
      · simp only [floodNeighbors, if_pos hc]
        exact heq
      · intro p hp
        exact hsub p (List.mem_append_left _ hp)
      · intro hnod
        apply hnd
        simp [List.nodup_append, hnod, hc.1]
      · intro p hp
        rcases hnew p hp with hmem | ⟨hr, hf⟩
        · rcases List.mem_append.mp hmem with h1 | h1
          · exact Or.inl h1
          · have hpn : p = n := by simpa using h1
            subst hpn
            exact Or.inr ⟨by simp, hc.2⟩
        · exact Or.inr ⟨List.mem_cons_of_mem _ hr, hf⟩
      · intro p hp
        rcases hs2q p hp with hmem | hq
        · rcases List.mem_append.mp hmem with h1 | h1
          · exact Or.inl h1
          · have hpn : p = n := by simpa using h1
            subst hpn
            exact Or.inr (hqsub _ (List.mem_append_right _ (by simp)))
        · exact Or.inr hq
      · intro m hm hf
        rcases List.mem_cons.mp hm with rfl | hr
        · exact hsub m hnmem
        · exact hcov m hr hf
      · intro p hp
        rcases hq2 p hp with hmem | hs
        · rcases List.mem_append.mp hmem with h1 | h1
          · exact Or.inl h1
          · have hpn : p = n := by simpa using h1
            subst hpn
            exact Or.inr (hsub _ hnmem)
        · exact Or.inr hs
      · intro p hp
        exact hqsub p (List.mem_append_left _ hp)
      · simp only [List.length_append, List.length_singleton] at hlen
        omega
      · simp only [List.length_append, List.length_singleton] at hmono
        omega
    · obtain ⟨q2, seen2, heq, hsub, hnd, hnew, hs2q, hcov, hq2, hqsub, hlen, hmono⟩ :=
        ih q seen
      refine ⟨q2, seen2, ?_, hsub, hnd, ?_, hs2q, ?_, hq2, hqsub, hlen, hmono⟩
      · simp only [floodNeighbors, if_neg hc]
        exact heq
      · intro p hp
        rcases hnew p hp with h | ⟨hr, hf⟩
        · exact Or.inl h
        · exact Or.inr ⟨List.mem_cons_of_mem _ hr, hf⟩
      · intro m hm hf
        rcases List.mem_cons.mp hm with rfl | hr
        · rcases not_and_or.mp hc with h1 | h1
          · exact hsub m (not_not.mp h1)
          · exact absurd hf h1
        · exact hcov m hr hf

/-- The limit-free worklist loop, with sufficient fuel, terminates naturally
on a duplicate-free, in-range, neighbour-closed seen set containing the
initial one.  The fuel bound works because every iteration pops one queued
cell, every cell enters the queue at most once, and a duplicate-free list of
in-range cells has at most W*H entries. -/
theorem floodLoop_none_spec (board : List (List Nat)) (W H : Nat)
    (hfr : ∀ p, is_cell_free board p = true → inRangeCell W H p) :
    ∀ (fuel : Nat) (q seen : List (Int × Int)),
      seen.Nodup →
      (∀ p, p ∈ seen → inRangeCell W H p) →
      (∀ p, p ∈ q → p ∈ seen) →
      (∀ p, p ∈ seen → p ∈ q ∨ ∀ n, n ∈ neighborsList p W H →
        is_cell_free board n = true → n ∈ seen) →
      q.length + (W * H - seen.length) < fuel →
      ∃ seenF, floodLoop board W H none fuel q seen = .inl seenF ∧
        seenF.Nodup ∧ (∀ p, p ∈ seen → p ∈ seenF) ∧
        (∀ p, p ∈ seenF → inRangeCell W H p) ∧
        (∀ p, p ∈ seenF → ∀ n, n ∈ neighborsList p W H →
          is_cell_free board n = true → n ∈ seenF) := by
  intro fuel
  induction fuel with
  | zero =>
    intro q seen _ _ _ _ hm
    omega
  | succ m ih =>
    intro q seen hnd hin hqs hcl hm
    cases q with
    | nil =>
      refine ⟨seen, by simp [floodLoop], hnd, fun p hp => hp, hin, ?_⟩
      intro p hp
      rcases hcl p hp with h | h
      · exact absurd h (List.not_mem_nil p)
      · exact h
    | cons v qrest =>
      obtain ⟨q2, seen2, heq, hsub, hndp, hnew, hs2q, hcov, hq2, hqsub, hlen, hmono⟩ :=
        floodNeighbors_none_spec board (neighborsList v W H) qrest seen
      have hnd2 : seen2.Nodup := hndp hnd
      have hin2 : ∀ p, p ∈ seen2 → inRangeCell W H p := by
        intro p hp
        rcases hnew p hp with h | ⟨_, hf⟩
        · exact hin p h
        · exact hfr p hf
      have hqs2 : ∀ p, p ∈ q2 → p ∈ seen2 := by
        intro p hp
        rcases hq2 p hp with h | h
        · exact hsub p (hqs p (List.mem_cons_of_mem v h))
        · exact h
      have hcl2 : ∀ p, p ∈ seen2 → p ∈ q2 ∨ ∀ n, n ∈ neighborsList p W H →
          is_cell_free board n = true → n ∈ seen2 := by
        intro p hp
        by_cases hps : p ∈ seen
        · rcases hcl p hps with hq | hclosed
          · rcases List.mem_cons.mp hq with rfl | hqr
            · exact Or.inr fun n hn hf => hcov n hn hf
            · exact Or.inl (hqsub p hqr)
          · exact Or.inr fun n hn hf => hsub n (hclosed n hn hf)
        · rcases hs2q p hp with h | h
          · exact absurd h hps
          · exact Or.inl h
      have hcap : seen2.length ≤ W * H := nodup_inRange_length_le W H seen2 hnd2 hin2
      have hm2 : q2.length + (W * H - seen2.length) < m := by
        simp only [List.length_cons] at hm
        omega
      obtain ⟨seenF, heqF, hndF, hsubF, hinF, hclF⟩ := ih q2 seen2 hnd2 hin2 hqs2 hcl2 hm2
      refine ⟨seenF, ?_, hndF, fun p hp => hsubF p (hsub p hp), hinF, hclF⟩
      simp only [floodLoop, heq]
      exact heqF

/-- Wrap arithmetic of the rightward neighbour of an in-range cell. -/
theorem torus_right (W H a b : Nat) (hb : b < H) :
    torus ((a : Int) + 1, (b : Int)) W H
      = ((((a + 1) % W : Nat) : Int), (b : Int)) := by
  unfold torus
  refine Prod.ext ?_ ?_
  · show ((a : Int) + 1) % (W : Int) = (((a + 1) % W : Nat) : Int)
    push_cast
    ring
  · show (b : Int) % (H : Int) = (b : Int)
    refine Int.emod_eq_of_lt (by positivity) (by exact_mod_cast hb)

/-- Wrap arithmetic of the downward neighbour of an in-range cell. -/
theorem torus_down (W H a b : Nat) (ha : a < W) :
    torus ((a : Int), (b : Int) + 1) W H
      = ((a : Int), (((b + 1) % H : Nat) : Int)) := by
  unfold torus
  refine Prod.ext ?_ ?_
  · show (a : Int) % (W : Int) = (a : Int)
    refine Int.emod_eq_of_lt (by positivity) (by exact_mod_cast ha)
  · show ((b : Int) + 1) % (H : Int) = (((b + 1) % H : Nat) : Int)
    push_cast
    ring

/-- Torus connectivity: any set of cells containing one in-range cell and
closed under the wrapped rightward and downward steps contains every
in-range cell. -/
theorem torus_reach (W H : Nat) (S : List (Int × Int)) (x y : Nat)
    (hx : x < W) (hy : y < H)
    (hstart : ((x : Int), (y : Int)) ∈ S)
    (hright : ∀ a b : Nat, a < W → b < H → ((a : Int), (b : Int)) ∈ S →
      ((((a + 1) % W : Nat) : Int), (b : Int)) ∈ S)
    (hdown : ∀ a b : Nat, a < W → b < H → ((a : Int), (b : Int)) ∈ S →
      ((a : Int), (((b + 1) % H : Nat) : Int)) ∈ S) :
    ∀ u v : Nat, u < W → v < H → ((u : Int), (v : Int)) ∈ S := by
  have hW : 0 < W := by omega
  have hH : 0 < H := by omega
  have hcol : ∀ j : Nat, ((x : Int), (((y + j) % H : Nat) : Int)) ∈ S := by
    intro j
    induction j with
    | zero => simpa [Nat.mod_eq_of_lt hy] using hstart
    | succ k ihk =>
      have hstep := hdown x ((y + k) % H) hx (Nat.mod_lt _ hH) ihk
      have harith : ((y + k) % H + 1) % H = (y + (k + 1)) % H := by
        conv_rhs => rw [show y + (k + 1) = (y + k) + 1 by omega]
        exact Nat.mod_add_mod (y + k) H 1
      rwa [harith] at hstep
  have hall : ∀ i j : Nat,
      ((((x + i) % W : Nat) : Int), (((y + j) % H : Nat) : Int)) ∈ S := by
    intro i
    induction i with
    | zero =>
      intro j
      simpa [Nat.mod_eq_of_lt hx] using hcol j
    | succ k ihk =>
      intro j
      have hstep := hright ((x + k) % W) ((y + j) % H)
        (Nat.mod_lt _ hW) (Nat.mod_lt _ hH) (ihk j)
      have harith : ((x + k) % W + 1) % W = (x + (k + 1)) % W := by
        conv_rhs => rw [show x + (k + 1) = (x + k) + 1 by omega]
        exact Nat.mod_add_mod (x + k) W 1
      rwa [harith] at hstep
  intro u v hu hv
  have hmain := hall (u + W - x) (v + H - y)
  have e1 : (x + (u + W - x)) % W = u := by
    rw [show x + (u + W - x) = u + W by omega]
    rw [Nat.add_mod_right]
    exact Nat.mod_eq_of_lt hu
  have e2 : (y + (v + H - y)) % H = v := by
    rw [show y + (v + H - y) = v + H by omega]
    rw [Nat.add_mod_right]
    exact Nat.mod_eq_of_lt hv
  rwa [e1, e2] at hmain

/-- On a rectangular all-zero board, freeness is exactly in-rangeness. -/
theorem is_cell_free_empty_grid (board : List (List Nat)) (W H : Nat)
    (hH : board.length = H) (hrows : ∀ row ∈ board, row.length = W)
    (hzero : ∀ row ∈ board, ∀ c ∈ row, c = 0) (hpos : 0 < H) :
    ∀ p, is_cell_free board p = true ↔ inRangeCell W H p := by
  have hhead : (board.headD []).length = W := by
    cases board with
    | nil => simp at hH; omega
    | cons r rs => exact hrows r (by simp)
  intro p
  unfold is_cell_free inRangeCell
  constructor
  · intro h
    simp only [Bool.and_eq_true, decide_eq_true_eq] at h
    obtain ⟨⟨⟨⟨h1, h2⟩, h3⟩, h4⟩, _⟩ := h
    rw [hH] at h2
    rw [hhead] at h4
    exact ⟨h3, h4, h1, h2⟩
  · intro h
    obtain ⟨h1, h2, h3, h4⟩ := h
    have hylt : p.2.toNat < board.length := by omega
    have hrow : board.getD p.2.toNat [] ∈ board := by
      rw [List.getD_eq_getElem board [] hylt]
      exact List.getElem_mem hylt
    have hxlt : p.1.toNat < (board.getD p.2.toNat []).length := by
      rw [hrows _ hrow]
      omega
    have hcell : (board.getD p.2.toNat []).getD p.1.toNat 0 = 0 := by
      rw [List.getD_eq_getElem _ 0 hxlt]
      exact hzero _ hrow _ (List.getElem_mem hxlt)
    simp only [Bool.and_eq_true, decide_eq_true_eq]
    refine ⟨⟨⟨⟨h3, ?_⟩, h1⟩, ?_⟩, beq_iff_eq.mpr hcell⟩
    · rw [hH]
      exact h4
    · rw [hhead]
      exact h2

/-- C8's full-grid case: on a rectangular board with every cell 0 and no
limit, the flood-fill count from any in-range start is exactly W*H. -/
theorem flood_fill_count_empty_grid (board : List (List Nat)) (W H x y : Nat)
    (hH : board.length = H) (hrows : ∀ row ∈ board, row.length = W)
    (hzero : ∀ row ∈ board, ∀ c ∈ row, c = 0) (hx : x < W) (hy : y < H) :
    flood_fill_count board ((x : Int), (y : Int)) W H none = W * H := by
  have hfr := is_cell_free_empty_grid board W H hH hrows hzero (by omega)
  have hstart_in : inRangeCell W H ((x : Int), (y : Int)) :=
    inRangeCell_mk x y hx hy
  have hfree : is_cell_free board ((x : Int), (y : Int)) = true :=
    (hfr _).mpr hstart_in
  have hWH : 0 < W * H := Nat.mul_pos (by omega) (by omega)
  obtain ⟨seenF, heqF, hndF, hsubF, hinF, hclF⟩ :=
    floodLoop_none_spec board W H (fun p h => (hfr p).mp h) (W * H + 1)
      [((x : Int), (y : Int))] [((x : Int), (y : Int))]
      (by simp)
      (by
        intro p hp
        rw [List.mem_singleton.mp hp]
        exact hstart_in)
      (fun p hp => hp)
      (fun p hp => Or.inl hp)
      (by simp only [List.length_singleton]; omega)
  have hstartF : ((x : Int), (y : Int)) ∈ seenF := hsubF _ (by simp)
  have hright : ∀ a b : Nat, a < W → b < H → ((a : Int), (b : Int)) ∈ seenF →
      ((((a + 1) % W : Nat) : Int), (b : Int)) ∈ seenF := by
    intro a b ha hb hmem
    have hn : ((((a + 1) % W : Nat) : Int), (b : Int))
        ∈ neighborsList ((a : Int), (b : Int)) W H := by
      unfold neighborsList
      rw [show (((a : Int), (b : Int)).1 + 1, ((a : Int), (b : Int)).2)
        = ((a : Int) + 1, (b : Int)) from rfl, torus_right W H a b hb]
      simp
    have hW : 0 < W := by omega
    have hfree2 : is_cell_free board ((((a + 1) % W : Nat) : Int), (b : Int)) = true :=
      (hfr _).mpr (inRangeCell_mk _ _ (Nat.mod_lt _ hW) hb)
    exact hclF _ hmem _ hn hfree2
  have hdown : ∀ a b : Nat, a < W → b < H → ((a : Int), (b : Int)) ∈ seenF →
      ((a : Int), (((b + 1) % H : Nat) : Int)) ∈ seenF := by
    intro a b ha hb hmem
    have hn : ((a : Int), (((b + 1) % H : Nat) : Int))
        ∈ neighborsList ((a : Int), (b : Int)) W H := by
      unfold neighborsList
      rw [show (((a : Int), (b : Int)).1, ((a : Int), (b : Int)).2 + 1)
        = ((a : Int), (b : Int) + 1) from rfl, torus_down W H a b ha]
      simp
    have hHp : 0 < H := by omega
    have hfree2 : is_cell_free board ((a : Int), (((b + 1) % H : Nat) : Int)) = true :=
      (hfr _).mpr (inRangeCell_mk _ _ ha (Nat.mod_lt _ hHp))
    exact hclF _ hmem _ hn hfree2
  have hcov : ∀ p, inRangeCell W H p → p ∈ seenF := by
    intro p hp
    obtain ⟨h1, h2, h3, h4⟩ := hp
    have hr := torus_reach W H seenF x y hx hy hstartF hright hdown
      p.1.toNat p.2.toNat (by omega) (by omega)
    have hpe : ((p.1.toNat : Int), (p.2.toNat : Int)) = p := by
      refine Prod.ext ?_ ?_ <;> simp <;> omega
    rwa [hpe] at hr
  have hlen := nodup_inRange_cover_length W H seenF hndF hinF hcov
  unfold flood_fill_count
  rw [if_pos hfree, heqF]
  exact hlen

/-- C8's zero case: flood fill from an occupied start returns 0. -/
theorem flood_fill_count_occupied (board : List (List Nat)) (start : Int × Int)
    (W H : Nat) (limit : Option Nat)
    (h : (board.getD start.2.toNat []).getD start.1.toNat 0 ≠ 0) :
    flood_fill_count board start W H limit = 0 := by
  simp [flood_fill_count, is_cell_free_of_occupied h]

/-! ## Helper lemmas about the move evaluators -/

/-- Peeling one successful bind of the `Except` monad. -/
theorem except_bind_ok_elim {α β : Type} {e : Except String α}
    {f : α → Except String β} {r : β} (h : e >>= f = .ok r) :
    ∃ v, e = .ok v ∧ f v = .ok r := by
  cases e with
  | error s => exact absurd h (by simp [Bind.bind, Except.bind])
  | ok v => exact ⟨v, rfl, h⟩

/-- The four direction names are all well-formed actions. -/
theorem mem_ACTIONS_of_dir {m : String}
    (h : m ∈ ["UP", "DOWN", "LEFT", "RIGHT"]) : m ∈ ACTIONS := by
  simp only [List.mem_cons, List.not_mem_nil, or_false] at h
  rcases h with rfl | rfl | rfl | rfl <;> simp [ACTIONS]

/-- AgentC's fallback token is always a well-formed action. -/
theorem cFallback_mem (st : CState) : cFallback st ∈ ACTIONS := by
  unfold cFallback
  split
  · assumption
  · simp [ACTIONS]

/-- The names of AgentC's direction dict. -/
theorem cDirections_fst_mem {p : String × (Int × Int)} (h : p ∈ cDirections) :
    p.1 ∈ ["UP", "DOWN", "LEFT", "RIGHT"] := by
  simp only [cDirections, List.mem_cons, List.not_mem_nil, or_false] at h
  rcases h with rfl | rfl | rfl | rfl <;> simp

/-- Any name `_find_interception_move`'s fold can report came from its
direction list (or was the incoming best). -/
theorem cInterceptGo_mem (cd mp op pp : Int × Int) (board : List (List Nat))
    (mt ot : List (Int × Int)) (hh ww : Nat) (ah : Bool) :
    ∀ (l : List (String × (Int × Int))) (best : Option String)
      (bs : Option Int) (r : Option String),
      cInterceptGo cd mp op pp board mt ot hh ww ah l best bs = .ok r →
      ∀ m, r = some m → best = some m ∨ ∃ p, p ∈ l ∧ m = p.1 := by
  intro l
  induction l with
  | nil =>
    intro best bs r h m hm
    simp only [cInterceptGo] at h
    injection h with h2
    subst h2
    exact Or.inl hm
  | cons p rest ih =>
    rcases p with ⟨mn, d⟩
    intro best bs r h m hm
    simp only [cInterceptGo] at h
    split at h
    · rcases ih _ _ _ h m hm with h1 | ⟨q, hq, hmq⟩
      · exact Or.inl h1
      · exact Or.inr ⟨q, List.mem_cons_of_mem _ hq, hmq⟩
    · split at h
      · exact Except.noConfusion h
      · split at h
        · exact Except.noConfusion h
        · split at h
          · rcases ih _ _ _ h m hm with h1 | ⟨q, hq, hmq⟩
            · exact Or.inl h1
            · exact Or.inr ⟨q, List.mem_cons_of_mem _ hq, hmq⟩
          · split at h
            · exact Except.noConfusion h
            · split at h
              · rcases ih _ _ _ h m hm with h1 | ⟨q, hq, hmq⟩
                · exact Or.inl h1
                · exact Or.inr ⟨q, List.mem_cons_of_mem _ hq, hmq⟩
              · split at h
                · exact Except.noConfusion h
                · split at h
                  · rcases ih _ _ _ h m hm with h1 | ⟨q, hq, hmq⟩
                    · injection h1 with h1
                      exact Or.inr ⟨(mn, d), List.mem_cons_self _ _, h1.symm⟩
                    · exact Or.inr ⟨q, List.mem_cons_of_mem _ hq, hmq⟩
                  · rcases ih _ _ _ h m hm with h1 | ⟨q, hq, hmq⟩
                    · exact Or.inl h1
                    · exact Or.inr ⟨q, List.mem_cons_of_mem _ hq, hmq⟩

/-- Any name `_find_aggressive_chase`'s fold can report came from its
direction list (or was the incoming best). -/
theorem cChaseGo_mem (cd mp op pp : Int × Int) (board : List (List Nat))
    (mt ot : List (Int × Int)) (hh ww : Nat) (ah : Bool) :
    ∀ (l : List (String × (Int × Int))) (best : Option String)
      (bs : Option Int) (r : Option String),
      cChaseGo cd mp op pp board mt ot hh ww ah l best bs = .ok r →
      ∀ m, r = some m → best = some m ∨ ∃ p, p ∈ l ∧ m = p.1 := by
  intro l
  induction l with
  | nil =>
    intro best bs r h m hm
    simp only [cChaseGo] at h
    injection h with h2
    subst h2
    exact Or.inl hm
  | cons p rest ih =>
    rcases p with ⟨mn, d⟩
    intro best bs r h m hm
    simp only [cChaseGo] at h
    split at h
    · rcases ih _ _ _ h m hm with h1 | ⟨q, hq, hmq⟩
      · exact Or.inl h1
      · exact Or.inr ⟨q, List.mem_cons_of_mem _ hq, hmq⟩
    · split at h
      · exact Except.noConfusion h
      · split at h
        · exact Except.noConfusion h
        · split at h
          · rcases ih _ _ _ h m hm with h1 | ⟨q, hq, hmq⟩
            · exact Or.inl h1
            · exact Or.inr ⟨q, List.mem_cons_of_mem _ hq, hmq⟩
          · split at h
            · exact Except.noConfusion h
            · split at h
              · rcases ih _ _ _ h m hm with h1 | ⟨q, hq, hmq⟩
                · exact Or.inl h1
                · exact Or.inr ⟨q, List.mem_cons_of_mem _ hq, hmq⟩
              · split at h
                · rcases ih _ _ _ h m hm with h1 | ⟨q, hq, hmq⟩
                  · injection h1 with h1
                    exact Or.inr ⟨(mn, d), List.mem_cons_self _ _, h1.symm⟩
                  · exact Or.inr ⟨q, List.mem_cons_of_mem _ hq, hmq⟩
                · rcases ih _ _ _ h m hm with h1 | ⟨q, hq, hmq⟩
                  · exact Or.inl h1
                  · exact Or.inr ⟨q, List.mem_cons_of_mem _ hq, hmq⟩

/-- Any name `_find_space_control_move`'s fold can report came from its
direction list (or was the incoming best). -/
theorem cSpaceControlGo_mem (cd mp : Int × Int) (board : List (List Nat))
    (mt ot : List (Int × Int)) (hh ww : Nat) (ah : Bool) :
    ∀ (l : List (String × (Int × Int))) (best : Option String) (bs : Int)
      (r : Option String),
      cSpaceControlGo cd mp board mt ot hh ww ah l best bs = .ok r →
      ∀ m, r = some m → best = some m ∨ ∃ p, p ∈ l ∧ m = p.1 := by
  intro l
  induction l with
  | nil =>
    intro best bs r h m hm
    simp only [cSpaceControlGo] at h
    injection h with h2
    subst h2
    exact Or.inl hm
  | cons p rest ih =>
    rcases p with ⟨mn, d⟩
    intro best bs r h m hm
    simp only [cSpaceControlGo] at h
    split at h
    · rcases ih _ _ _ h m hm with h1 | ⟨q, hq, hmq⟩
      · exact Or.inl h1
      · exact Or.inr ⟨q, List.mem_cons_of_mem _ hq, hmq⟩
    · split at h
      · exact Except.noConfusion h
      · split at h
        · exact Except.noConfusion h
        · split at h
          · rcases ih _ _ _ h m hm with h1 | ⟨q, hq, hmq⟩
            · exact Or.inl h1
            · exact Or.inr ⟨q, List.mem_cons_of_mem _ hq, hmq⟩
          · split at h
            · exact Except.noConfusion h
            · split at h
              · rcases ih _ _ _ h m hm with h1 | ⟨q, hq, hmq⟩
                · injection h1 with h1
                  exact Or.inr ⟨(mn, d), List.mem_cons_self _ _, h1.symm⟩
                · exact Or.inr ⟨q, List.mem_cons_of_mem _ hq, hmq⟩
              · rcases ih _ _ _ h m hm with h1 | ⟨q, hq, hmq⟩
                · exact Or.inl h1
                · exact Or.inr ⟨q, List.mem_cons_of_mem _ hq, hmq⟩

/-- Any name `_find_evasive_move`'s fold can report came from its direction
list (or was the incoming best). -/
theorem cEvasiveGo_mem (cd mp op : Int × Int) (board : List (List Nat))
    (mt ot : List (Int × Int)) (hh ww : Nat) (ah : Bool) :
    ∀ (l : List (String × (Int × Int))) (best : Option String) (bs : Int)
      (r : Option String),
      cEvasiveGo cd mp op board mt ot hh ww ah l best bs = .ok r →
      ∀ m, r = some m → best = some m ∨ ∃ p, p ∈ l ∧ m = p.1 := by
  intro l
  induction l with
  | nil =>
    intro best bs r h m hm
    simp only [cEvasiveGo] at h
    injection h with h2
    subst h2
    exact Or.inl hm
  | cons p rest ih =>
    rcases p with ⟨mn, d⟩
    intro best bs r h m hm
    simp only [cEvasiveGo] at h
    split at h
    · rcases ih _ _ _ h m hm with h1 | ⟨q, hq, hmq⟩
      · exact Or.inl h1
      · exact Or.inr ⟨q, List.mem_cons_of_mem _ hq, hmq⟩
    · split at h
      · exact Except.noConfusion h
      · split at h
        · exact Except.noConfusion h
        · split at h
          · rcases ih _ _ _ h m hm with h1 | ⟨q, hq, hmq⟩
            · exact Or.inl h1
            · exact Or.inr ⟨q, List.mem_cons_of_mem _ hq, hmq⟩
          · split at h
            · rcases ih _ _ _ h m hm with h1 | ⟨q, hq, hmq⟩
              · injection h1 with h1
                exact Or.inr ⟨(mn, d), List.mem_cons_self _ _, h1.symm⟩
              · exact Or.inr ⟨q, List.mem_cons_of_mem _ hq, hmq⟩
            · rcases ih _ _ _ h m hm with h1 | ⟨q, hq, hmq⟩
              · exact Or.inl h1
              · exact Or.inr ⟨q, List.mem_cons_of_mem _ hq, hmq⟩

/-- Every move name AgentC's strategy selection can produce is one of the
four direction names. -/
theorem cBestMove_mem (st : CState) (board : List (List Nat))
    (mh oh pp : Int × Int) (mt ot : List (Int × Int)) (hh ww : Nat)
    (agg ah : Bool) (m : String)
    (h : cBestMove st board mh oh pp mt ot hh ww agg ah = .ok (some m)) :
    m ∈ ["UP", "DOWN", "LEFT", "RIGHT"] := by
  unfold cBestMove at h
  split at h
  · -- aggressive
    split at h
    · exact absurd h (by simp)
    · -- interception found
      rename_i m2 heq
      injection h with h2
      injection h2 with h3
      subst h3
      rcases cInterceptGo_mem st.current_direction mh oh pp board mt ot hh ww
          ah cDirections none none _ heq m2 rfl with h1 | ⟨q, hq, hmq⟩
      · exact absurd h1 (by simp)
      · exact hmq ▸ cDirections_fst_mem hq
    · -- chase fallback
      unfold cFindAggressiveChase at h
      split at h
      · exact Except.noConfusion h
      · rcases cChaseGo_mem st.current_direction mh oh _ board mt ot hh ww ah
            cDirections none none _ h m rfl with h1 | ⟨q, hq, hmq⟩
        · exact absurd h1 (by simp)
        · exact hmq ▸ cDirections_fst_mem hq
  · -- defensive
    split at h
    · exact absurd h (by simp)
    · rename_i m2 heq
      injection h with h2
      injection h2 with h3
      subst h3
      rcases cSpaceControlGo_mem st.current_direction mh board mt ot hh ww ah
          cDirections none (-1) _ heq m2 rfl with h1 | ⟨q, hq, hmq⟩
      · exact absurd h1 (by simp)
      · exact hmq ▸ cDirections_fst_mem hq
    · rcases cEvasiveGo_mem st.current_direction mh oh board mt ot hh ww ah
          cDirections none (-1) _ h m rfl with h1 | ⟨q, hq, hmq⟩
      · exact absurd h1 (by simp)
      · exact hmq ▸ cDirections_fst_mem hq

/-- The token of AgentC's successful main path is always a well-formed
action. -/
theorem cAction2_mem (st1 : CState) (gs : Snapshot) (pp : Int × Int)
    (best_move : String) (hbm : best_move ∈ ["UP", "DOWN", "LEFT", "RIGHT"]) :
    cAction2 st1 gs pp best_move ∈ ACTIONS := by
  unfold cAction2
  split
  · assumption
  · exact mem_ACTIONS_of_dir hbm

/-- Every token AgentC's `try` body can return successfully is a well-formed
action (a direction or a direction with the `:BOOST` suffix). -/
theorem cTryBody_mem (st : CState) (gs : Snapshot) (st2 : CState) (a : String)
    (h : cTryBody st gs = (st2, .ok a)) : a ∈ ACTIONS := by
  unfold cTryBody at h
  split at h
  · exact absurd (congrArg Prod.snd h) (by simp)
  · split at h
    · have h2 := congrArg Prod.snd h
      simp only [] at h2
      injection h2 with h3
      exact h3 ▸ cFallback_mem _
    · unfold cMainPath at h
      split at h
      · exact absurd (congrArg Prod.snd h) (by simp)
      · split at h
        · exact absurd (congrArg Prod.snd h) (by simp)
        · exact absurd (congrArg Prod.snd h) (by simp)
        · rename_i best_move heq
          have h2 := congrArg Prod.snd h
          simp only [] at h2
          injection h2 with h3
          exact h3 ▸ cAction2_mem _ _ _ _ (cBestMove_mem _ _ _ _ _ _ _ _ _ _ _ _ heq)

/-! ## Helper lemmas about the move evaluators' boost gating -/

/-- The `or "RIGHT"` of the heading read always yields a canonical
direction name. -/
theorem infer_getD_mem (trail : List (Int × Int)) (W H : Nat) :
    (infer_current_dir trail W H).getD "RIGHT" ∈ ["UP", "DOWN", "LEFT", "RIGHT"] := by
  unfold infer_current_dir
  split
  · simp
  · dsimp only
    repeat' split
    all_goals simp

/-- AgentS's `my_dir` is always a canonical direction name. -/
theorem sMyDir_mem (gs : Snapshot) (board : List (List Nat)) :
    sMyDir gs board ∈ ["UP", "DOWN", "LEFT", "RIGHT"] := infer_getD_mem _ _ _

/-- `DIR_ORDER` holds only the four canonical direction names. -/
theorem mem_of_DIR_ORDER {m : String} (h : m ∈ DIR_ORDER) :
    m ∈ ["UP", "DOWN", "LEFT", "RIGHT"] := by
  simp only [DIR_ORDER, List.mem_cons, List.not_mem_nil, or_false] at h
  rcases h with rfl | rfl | rfl | rfl <;> simp

/-- Any name the scoring fold reports came from its candidate list (or was
the incoming best). -/
theorem scoreCandidates_mem (board : List (List Nat))
    (my_head opp_head : Int × Int) (my_dir : String) (pnum : Nat)
    (wArea wVor headon : ℚ) (kamikaze : Bool) (opp_future : List (Int × Int))
    (W H : Nat) :
    ∀ (cands : List String) (best : Option String) (acc : ℚ)
      (bp : Option String × ℚ),
      scoreCandidates board my_head opp_head my_dir pnum wArea wVor headon
        kamikaze opp_future W H cands best acc = .ok bp →
      ∀ m, bp.1 = some m → best = some m ∨ m ∈ cands := by
  intro cands
  induction cands with
  | nil =>
    intro best acc bp h m hm
    unfold scoreCandidates at h
    injection h with h
    left
    rw [← h] at hm
    exact hm
  | cons d rest ih =>
    intro best acc bp h m hm
    unfold scoreCandidates at h
    split at h
    · exact Except.noConfusion h
    · split at h
      · rcases ih _ _ _ h m hm with h1 | h1
        · injection h1 with h1
          subst h1
          right
          exact List.mem_cons_self _ _
        · right
          exact List.mem_cons_of_mem _ h1
      · rcases ih _ _ _ h m hm with h1 | h1
        · left
          exact h1
        · right
          exact List.mem_cons_of_mem _ h1

/-- The chosen candidate is a canonical direction name. -/
theorem sChosen_mem (gs : Snapshot) (board : List (List Nat))
    (best : Option String) (hb : ∀ m, best = some m → m ∈ DIR_ORDER) :
    sChosen best (sMyDir gs board) ∈ ["UP", "DOWN", "LEFT", "RIGHT"] := by
  cases best with
  | some b => exact mem_of_DIR_ORDER (hb b rfl)
  | none =>
    show (if sMyDir gs board == "" then "RIGHT" else sMyDir gs board) ∈ _
    split
    · simp
    · exact sMyDir_mem gs board

/-- With 0 boosts, any token `AgentS.choose_action` returns successfully is
a bare direction: the boost tail (agents.py:346-371) is guarded by
`boosts > 0`. -/
theorem sChoose_no_boost (gs : Snapshot) (tok : String) (hb : sBoosts gs = 0)
    (h : chooseActionS gs = .ok tok) : tok ∈ ["UP", "DOWN", "LEFT", "RIGHT"] := by
  cases hbd : gs.board with
  | none =>
    have h2 : chooseActionS gs = .ok "RIGHT" := by
      unfold chooseActionS
      rw [hbd]
    rw [h2] at h
    injection h with h
    rw [← h]
    simp
  | some board =>
    have h2 : chooseActionS gs = sMain gs board := by
      unfold chooseActionS
      rw [hbd]
    rw [h2] at h
    unfold sMain at h
    split at h
    · exact Except.noConfusion h
    · split at h
      · exact Except.noConfusion h
      · split at h
        · exact Except.noConfusion h
        · rename_i bp heq
          rw [hb] at h
          simp only [lt_self_iff_false, if_false] at h
          injection h with h
          rw [← h]
          apply sChosen_mem
          intro m hm
          rcases scoreCandidates_mem _ _ _ _ _ _ _ _ _ _ _ _ _ _ _ _ heq m hm with h1 | h1
          · exact Option.noConfusion h1
          · unfold sCandidates at h1
            exact (List.mem_filter.mp h1).1

/-- AgentW's output re-formatting is the identity on bare direction
names. -/
theorem wFormatToken_dir {s : String}
    (h : s ∈ ["UP", "DOWN", "LEFT", "RIGHT"]) : wFormatToken s = s := by
  simp only [List.mem_cons, List.not_mem_nil, or_false] at h
  rcases h with rfl | rfl | rfl | rfl <;> rfl

/-- AgentW's random draw is a canonical direction name. -/
theorem wGetD_mem (rng : Nat) :
    W_DIR_NAMES.getD (rng % 4) "UP" ∈ ["UP", "DOWN", "LEFT", "RIGHT"] := by
  have h4 : rng % 4 < 4 := Nat.mod_lt _ (by norm_num)
  rw [List.getD_eq_getElem _ _ (by simpa [W_DIR_NAMES] using h4)]
  exact List.getElem_mem _

/-- With 0 boosts, `AgentW.propose_moves` offers only the four unboosted
direction candidates (agentw.py:158 guards the boost candidates). -/
theorem wCandList_no_boost (state : Snapshot) (hb : wBoostsLeft state = 0) :
    ∀ c ∈ wCandList state,
      c.used_boost = false ∧ c.move_str ∈ ["UP", "DOWN", "LEFT", "RIGHT"] := by
  intro c hc
  unfold wCandList at hc
  cases hmh : wMyHead state with
  | none =>
    rw [hmh] at hc
    dsimp only at hc
    rcases List.mem_map.mp hc with ⟨d, hd, rfl⟩
    exact ⟨rfl, by simpa [W_DIR_NAMES] using hd⟩
  | some mh =>
    rw [hmh] at hc
    dsimp only at hc
    rcases List.mem_flatMap.mp hc with ⟨d, hd, hcd⟩
    rw [hb] at hcd
    simp only [lt_self_iff_false, if_false, List.mem_singleton] at hcd
    subst hcd
    exact ⟨rfl, by simpa [W_DIR_NAMES] using hd⟩

/-- With 0 boosts, every safe candidate is an unboosted direction. -/
theorem wSafeOf_no_boost (state : Snapshot) (hb : wBoostsLeft state = 0) :
    ∀ s ∈ wSafeOf state,
      s.used_boost = false ∧ s.move_str ∈ ["UP", "DOWN", "LEFT", "RIGHT"] := by
  intro s hs
  unfold wSafeOf at hs
  rcases List.mem_filterMap.mp hs with ⟨c, hc, hcs⟩
  by_cases hd : c.dead
  · rw [if_pos hd] at hcs
    exact Option.noConfusion hcs
  · rw [if_neg hd] at hcs
    injection hcs with hcs
    rcases wCandList_no_boost state hb c hc with ⟨h1, h2⟩
    rw [← hcs]
    exact ⟨h1, h2⟩

/-- With 0 boosts, every scored candidate is an unboosted direction. -/
theorem wSorted_no_boost (state : Snapshot) (mh : Int × Int)
    (hb : wBoostsLeft state = 0) :
    ∀ t ∈ wSortedOf state mh,
      t.used_boost = false ∧ t.move_str ∈ ["UP", "DOWN", "LEFT", "RIGHT"] := by
  intro t ht
  unfold wSortedOf at ht
  rw [List.mem_mergeSort] at ht
  rcases List.mem_map.mp ht with ⟨sc, hsc, rfl⟩
  rcases wSafeOf_no_boost state hb sc hsc with ⟨h1, h2⟩
  exact ⟨h1, h2⟩

/-- Over a nonempty scored list of unboosted directions, the selection is an
unboosted direction. -/
theorem wChosen_no_boost (sorted : List WScored) (hne : sorted ≠ [])
    (hall : ∀ s ∈ sorted,
      s.used_boost = false ∧ s.move_str ∈ ["UP", "DOWN", "LEFT", "RIGHT"]) :
    wChosen sorted ∈ ["UP", "DOWN", "LEFT", "RIGHT"] := by
  have hbb : sorted.find? (fun s => s.used_boost) = none := by
    rw [List.find?_eq_none]
    intro s hs
    simp [(hall s hs).1]
  have htail : (match sorted.find? (fun s => !s.headon_risk) with
      | some s => s.move_str
      | none => (sorted.headD ⟨0, false, false, "RIGHT"⟩).move_str) ∈
      ["UP", "DOWN", "LEFT", "RIGHT"] := by
    cases hh : sorted.find? (fun s => !s.headon_risk) with
    | some s => exact (hall s (List.mem_of_find?_eq_some hh)).2
    | none =>
      cases sorted with
      | nil => exact absurd rfl hne
      | cons a l => exact (hall a (List.mem_cons_self a l)).2
  unfold wChosen
  rw [hbb]
  cases hnb : sorted.find? (fun s => !s.used_boost) with
  | none => exact htail
  | some nb => exact htail

/-- With 0 boosts, `AgentW.choose_action` returns a bare direction on every
path. -/
theorem wChoose_no_boost (gs : Snapshot) (rng : Nat) (hb : wBoostsLeft gs = 0) :
    chooseActionW gs rng ∈ ["UP", "DOWN", "LEFT", "RIGHT"] := by
  unfold chooseActionW
  cases hmh : wMyHead gs with
  | none => exact wGetD_mem rng
  | some mh =>
    dsimp only
    by_cases hse : (wSafeOf gs).isEmpty
    · rw [if_pos hse]
      cases hft : (wCandList gs).filter (fun c => !c.dead) with
      | nil => exact wGetD_mem rng
      | cons c l =>
        have hcm : c ∈ (wCandList gs).filter (fun c => !c.dead) := by
          rw [hft]
          exact List.mem_cons_self _ _
        have h2 := (wCandList_no_boost gs hb c (List.mem_of_mem_filter hcm)).2
        show wFormatToken c.move_str ∈ _
        rw [wFormatToken_dir h2]
        exact h2
    · rw [if_neg hse]
      have hne : wSortedOf gs mh ≠ [] := by
        intro hnil
        apply hse
        have hlen := congrArg List.length hnil
        rw [wSortedOf, List.length_mergeSort, List.length_map] at hlen
        rw [List.isEmpty_iff_length_eq_zero]
        exact hlen
      have hch := wChosen_no_boost (wSortedOf gs mh) hne (wSorted_no_boost gs mh hb)
      rw [wFormatToken_dir hch]
      exact hch

/-- With 0 boosts, any token AgentC's data-present strategy path returns is
a bare direction: `_should_boost_for_collision` refuses when
`my_boosts <= boost_threshold` and the `:BOOST` suffix is further guarded by
`my_boosts > boost_threshold` (agentc.py:146-158). -/
theorem cMainPath_no_boost (st st2 : CState) (gs : Snapshot) (a : String)
    (hb : cMyBoosts gs = 0) (h : cMainPath st gs = (st2, .ok a)) :
    a ∈ ["UP", "DOWN", "LEFT", "RIGHT"] := by
  unfold cMainPath at h
  split at h
  · exact absurd (congrArg Prod.snd h) (by simp)
  · rename_i pp hpp
    split at h
    · exact absurd (congrArg Prod.snd h) (by simp)
    · exact absurd (congrArg Prod.snd h) (by simp)
    · rename_i best_move heq
      have h2 := congrArg Prod.snd h
      simp only [] at h2
      injection h2 with h3
      have hbm := cBestMove_mem _ _ _ _ _ _ _ _ _ _ _ _ heq
      have hca : cAction st gs pp best_move = best_move := by
        unfold cAction
        rw [if_neg]
        rintro ⟨h4, h5⟩
        rw [hb] at h5
        exact Nat.not_lt_zero _ h5
      have hca2 : cAction2 st gs pp best_move = best_move := by
        unfold cAction2
        rw [hca]
        split <;> rfl
      rw [← h3, hca2]
      exact hbm

/-! ## Claim theorems -/

/-- C1, counterexample.  The claim says the substituted fallback direction is
drawn from the *legal* directions only (never the exact reverse of the
agent's current direction).  But `RandomPlayer.get_possible_moves` is all
four directions: with current direction RIGHT and RNG draw 2 the fallback
substitutes LEFT, which is exactly the reverse — and that raw LEFT (allowance
decremented, boost false) is what the orchestrator submits. -/
theorem C1_counterexample :
    acquireMove .fail .fail .RIGHT 5 2 = .move .LEFT false 4 true ∧
    Direction.LEFT = oppositeDir .RIGHT := by
  decide

/-- C1, amended.  After both move-fetch attempts are exhausted without a
truthy value, if the agent's random-move allowance is positive the
orchestrator substitutes `random.choice` over **all four** directions (the
draw may be the exact reverse of the current direction), decrements the
allowance by exactly 1, forces boost to false, and submits the raw
substituted direction to the rules engine (the reversal-corrected direction
that `handle_move` returns for the logged random move is discarded). -/
theorem C1_random_fallback (a1 a2 : FetchResult) (cur : Direction)
    (r rng : Nat) (h1 : a1.isTruthy = false) (h2 : a2.isTruthy = false)
    (hr : 0 < r) :
    acquireMove a1 a2 cur r rng = .move (get_best_move rng) false (r - 1) true := by
  simp [acquireMove, firstTruthyFetch_eq_none h1 h2, hr]

/-- C1, witness for the amended theorem at a concrete input. -/
theorem C1_witness :
    acquireMove .fail .fail .UP 5 0 = .move .UP false 4 true :=
  C1_random_fallback .fail .fail .UP 5 0 rfl rfl (by decide)

/-- C2.  In a turn where both of a player's move-fetch attempts are falsy and
that player's random-move allowance is 0, the match ends at once with the
opposing player the declared winner: AGENT2_WIN when player 1 forfeits,
AGENT1_WIN when player 2 forfeits (player 1 having produced a move).  The
rules engine `engine` is universally quantified and not invoked on this path:
no further turn is played. -/
theorem C2_forfeit_ends_match {σ : Type} (sched : Nat → Bool → Nat → FetchResult)
    (rng : Nat → Bool → Nat) (engine : EngineStep σ) (fuel : Nat)
    (st : GameSt σ) (p1r p2r : Nat) :
    ((sched st.turns false 1).isTruthy = false →
     (sched st.turns false 2).isTruthy = false → p1r = 0 →
      matchLoop sched rng engine (fuel + 1) st p1r p2r = .finished .AGENT2_WIN) ∧
    (∀ d1 b1 r1 i1,
      acquireMove (sched st.turns false 1) (sched st.turns false 2)
          st.dir1 p1r (rng st.turns false) = .move d1 b1 r1 i1 →
      (sched st.turns true 1).isTruthy = false →
      (sched st.turns true 2).isTruthy = false → p2r = 0 →
      matchLoop sched rng engine (fuel + 1) st p1r p2r = .finished .AGENT1_WIN) := by
  constructor
  · intro h1 h2 hp1
    subst hp1
    simp [matchLoop, acquireMove_forfeit h1 h2]
  · intro d1 b1 r1 i1 hmv h1 h2 hp2
    subst hp2
    simp [matchLoop, hmv, acquireMove_forfeit h1 h2]

/-- C2, witness at a concrete input: player 1 times out twice with no
allowance left; the match finishes AGENT2_WIN without consulting the engine
(here a trivial engine over `Unit`). -/
theorem C2_witness :
    matchLoop (fun _ _ _ => .fail) (fun _ _ => 0)
      (fun (st : GameSt Unit) _ _ _ _ => (st, none)) 1
      ⟨(), 0, .RIGHT, .RIGHT⟩ 0 5 = .finished .AGENT2_WIN :=
  (C2_forfeit_ends_match (fun _ _ _ => .fail) (fun _ _ => 0)
    (fun st _ _ _ _ => (st, none)) 0 ⟨(), 0, .RIGHT, .RIGHT⟩ 0 5).1 rfl rfl rfl

/-- C3.  A string token whose parsed direction is the exact reverse of the
agent's current direction never forfeits: `handle_move` returns a valid move
whose direction is the *current* direction (the reversal is replaced, the
token's boost field kept), and the acquisition phase leaves the random-move
allowance unchanged (`random_left` is returned as-is, `is_random` false). -/
theorem C3_reversal_corrected (s : String) (cur : Direction) (a2 : FetchResult)
    (r rng : Nat)
    (hrev : direction_map ((pySplitColon (pyUpper s)).headD "") = some (oppositeDir cur)) :
    handle_move (.str s) cur = .valid (parse_boost_flag s) cur ∧
    acquireMove (.got (.str s)) a2 cur r rng = .move cur (parse_boost_flag s) r false := by
  have hne : (s == "") = false := by
    cases hse : s == "" with
    | false => rfl
    | true =>
      have hs : s = "" := by simpa using hse
      subst hs
      have : direction_map ((pySplitColon (pyUpper "")).headD "") = none := by decide
      rw [this] at hrev
      exact Option.noConfusion hrev
  have hhm : handle_move (.str s) cur = .valid (parse_boost_flag s) cur := by
    rw [handle_move_str, hrev]
    simp [oppositeDir_value]
  refine ⟨hhm, ?_⟩
  have hft : firstTruthyFetch (.got (.str s)) a2 = some (.str s) := by
    simp [firstTruthyFetch, truthyFetch, MoveVal.isTruthy, hne]
  simp [acquireMove, hft, hhm]

/-- C3, witness: current direction RIGHT, submitted token "LEFT" — the match
applies RIGHT, no forfeit, allowance untouched. -/
theorem C3_witness :
    handle_move (.str "LEFT") .RIGHT = .valid (parse_boost_flag "LEFT") .RIGHT ∧
    acquireMove (.got (.str "LEFT")) .fail .RIGHT 5 0 =
      .move .RIGHT (parse_boost_flag "LEFT") 5 false :=
  C3_reversal_corrected "LEFT" .RIGHT .fail 5 0 (by decide)

/-- C4, counterexample.  The claim says validation forfeits *iff* the token
is not exactly `DIRECTION` or `DIRECTION:BOOST`; in particular a malformed
suffix should forfeit.  But `"UP:XYZ"` — not in the spec's grammar — is
accepted: the malformed suffix is silently ignored and the move validates as
a non-boosted UP. -/
theorem C4_counterexample :
    handle_move (.str "UP:XYZ") .UP = .valid false .UP ∧
    spec_token_ok "UP:XYZ" = false := by
  decide

/-- C4, amended.  `handle_move` forfeits a string token iff the text before
the first colon, uppercased, is not one of UP/DOWN/LEFT/RIGHT (any suffix
after the first colon is ignored except that a second field equal to BOOST
sets the boost flag); and every non-string move value forfeits. -/
theorem C4_forfeit_iff :
    (∀ (s : String) (cur : Direction),
      handle_move (.str s) cur = .forfeit ↔
        direction_map ((pySplitColon (pyUpper s)).headD "") = none) ∧
    (∀ (t : Bool) (cur : Direction), handle_move (.nonStr t) cur = .forfeit) := by
  constructor
  · intro s cur
    rw [handle_move_str]
    cases hd : direction_map ((pySplitColon (pyUpper s)).headD "") with
    | none => simp
    | some d =>
      show (if d.value = (-cur.value.1, -cur.value.2) then
          Validation.valid (parse_boost_flag s) cur
        else Validation.valid (parse_boost_flag s) d) = .forfeit ↔ some d = none
      constructor
      · intro h
        split at h <;> exact Validation.noConfusion h
      · intro h
        exact Option.noConfusion h
  · intro t cur
    rfl

/-- C5.  If the rules engine never reports a terminal result but each engine
step strictly advances the turn count, and every move request is answered
with a plain direction token (so no forfeit path fires), the turn loop
terminates by the 500-turn ceiling with DRAW; a fuel of `500 - turns`
iterations (at least one) suffices, i.e. the loop executes at most the
ceiling's worth of iterations. -/
theorem C5_turn_ceiling_draw {σ : Type} (sched : Nat → Bool → Nat → FetchResult)
    (rng : Nat → Bool → Nat) (engine : EngineStep σ)
    (hadv : ∀ st d1 b1 d2 b2, (engine st d1 b1 d2 b2).1.turns > st.turns)
    (hnt : ∀ st d1 b1 d2 b2, (engine st d1 b1 d2 b2).2 = none)
    (hsched : ∀ t p a, ∃ d, sched t p a = .got (.str (dir_to_str d))) :
    ∀ (fuel : Nat) (st : GameSt σ) (p1r p2r : Nat), 1 ≤ fuel →
      500 ≤ st.turns + fuel →
      matchLoop sched rng engine fuel st p1r p2r = .finished .DRAW := by
  intro fuel
  induction fuel with
  | zero => intro st p1r p2r h1 _; exact absurd h1 (by decide)
  | succ n ih =>
    intro st p1r p2r _ hceil
    obtain ⟨d1a, hd1⟩ := hsched st.turns false 1
    obtain ⟨d2a, hd2⟩ := hsched st.turns true 1
    obtain ⟨v1, w1, hv1⟩ := acquireMove_dir_token (sched st.turns false 2)
      st.dir1 p1r (rng st.turns false) d1a
    obtain ⟨v2, w2, hv2⟩ := acquireMove_dir_token (sched st.turns true 2)
      st.dir2 p2r (rng st.turns true) d2a
    rw [← hd1] at hv1
    rw [← hd2] at hv2
    simp only [matchLoop, hv1, hv2, hnt]
    split
    · rfl
    · rename_i hlt
      have hlt2 : ¬ 500 ≤ (engine st v1 w1 v2 w2).1.turns := hlt
      have hadv1 := hadv st v1 w1 v2 w2
      exact ih _ p1r p2r (by omega) (by omega)

/-- C5, witness: a never-terminal engine over `Unit` that advances the turn
count by one, agents that always answer "UP": 500 fuel from turn 0 ends DRAW. -/
theorem C5_witness :
    matchLoop (fun _ _ _ => .got (.str "UP")) (fun _ _ => 0)
      (fun (st : GameSt Unit) _ _ _ _ => (⟨(), st.turns + 1, st.dir1, st.dir2⟩, none))
      500 ⟨(), 0, .RIGHT, .RIGHT⟩ 5 5 = .finished .DRAW :=
  C5_turn_ceiling_draw (fun _ _ _ => .got (.str "UP")) (fun _ _ => 0)
    (fun st _ _ _ _ => (⟨(), st.turns + 1, st.dir1, st.dir2⟩, none))
    (fun _ _ _ _ _ => Nat.lt_succ_self _)
    (fun _ _ _ _ _ => rfl)
    (fun _ _ _ => ⟨.UP, rfl⟩)
    500 ⟨(), 0, .RIGHT, .RIGHT⟩ 5 5 (by decide) (by decide)

/-- C8, amended.  The flood-fill reachable-area count: on a rectangular
board with every cell free and no limit it equals W×H from any in-range
start; it returns 0 whenever the start cell itself holds a nonzero value;
and with a limit `l` it never exceeds `max l 2` — so it never exceeds the
limit itself once `l ≥ 2`, while `l ∈ {0,1}` can be overshot (the initial
count of 1 is never checked and the limit check runs after each increment),
as the counterexample shows. -/
theorem C8_flood_fill_area :
    (∀ (board : List (List Nat)) (W H x y : Nat), board.length = H →
      (∀ row ∈ board, row.length = W) → (∀ row ∈ board, ∀ c ∈ row, c = 0) →
      x < W → y < H →
      flood_fill_count board ((x : Int), (y : Int)) W H none = W * H) ∧
    (∀ (board : List (List Nat)) (start : Int × Int) (W H : Nat)
      (limit : Option Nat),
      (board.getD start.2.toNat []).getD start.1.toNat 0 ≠ 0 →
      flood_fill_count board start W H limit = 0) ∧
    (∀ (board : List (List Nat)) (start : Int × Int) (W H l : Nat),
      flood_fill_count board start W H (some l) ≤ max l 2) :=
  ⟨fun board W H x y hH hrows hzero hx hy =>
      flood_fill_count_empty_grid board W H x y hH hrows hzero hx hy,
   fun board start W H limit h =>
      flood_fill_count_occupied board start W H limit h,
   fun board start W H l => flood_fill_count_le board start W H l⟩

/-- C8, witness: the full-grid arm on the 1×1 free board and the zero arm on
the 1×1 occupied board. -/
theorem C8_witness :
    flood_fill_count [[0]] ((((0 : Nat)) : Int), (((0 : Nat)) : Int)) 1 1 none = 1 ∧
    flood_fill_count [[1]] (0, 0) 1 1 none = 0 :=
  ⟨by
    have h := C8_flood_fill_area.1 [[0]] 1 1 0 0 rfl (by decide) (by decide)
      (by decide) (by decide)
    simpa using h,
   C8_flood_fill_area.2.1 [[1]] (0, 0) 1 1 none (by decide)⟩

/-- C10, counterexample.  The claim says no orchestrator operation after the
connectivity check modifies any field of an `AgentIdentity`, but every
completed `Judge.get_move` exchange (lines 117-120) overwrites the agent's
`latency` with the freshly measured round-trip time — here an agent whose
latency was 1 ends up with latency 2 after a move request. -/
theorem C10_counterexample :
    (get_move ⟨"P1", "A1", some 1⟩ 2 (.response 200 (some (.str "UP")))).1.latency
        = some 2 ∧
    some (2 : ℚ) ≠ some (1 : ℚ) :=
  ⟨rfl, by decide⟩

/-- C10, amended.  `Judge.get_move` never modifies the participant and
agent-name fields created at the connectivity check (they are read-only
afterward), and on an exception/timeout the whole record is untouched;
only the `latency` field is overwritten, on every completed exchange. -/
theorem C10_identity_frame (a : PlayerAgent) (e : ℚ) (o : HttpOutcome) :
    ((get_move a e o).1.participant = a.participant ∧
     (get_move a e o).1.agent_name = a.agent_name) ∧
    (o = .exn → (get_move a e o).1 = a) := by
  cases o with
  | exn => exact ⟨⟨rfl, rfl⟩, fun _ => rfl⟩
  | response status mv =>
    refine ⟨?_, fun h => HttpOutcome.noConfusion h⟩
    simp only [get_move]
    split <;> exact ⟨rfl, rfl⟩

/-- C6, counterexample.  The spec's example says the trail `[(0,5),(9,5)]`
(oldest→newest, so a step from x=0 to x=9 — a single-cell leftward torus
wrap on a 10-wide grid) infers RIGHT.  The code normalizes the raw delta
dx=+9 to -1 and infers LEFT, exactly as the spec's own general rule
("normalizes any wrap-induced delta of magnitude >1 to the opposite unit
step") dictates. -/
theorem C6_counterexample :
    infer_current_dir [(0, 5), (9, 5)] 10 10 = some "LEFT" ∧
    some "LEFT" ≠ some "RIGHT" := by
  decide

/-- C6, amended.  Heading inference on a 10-wide grid: `[(5,5),(6,5)]`
infers RIGHT; the single-cell rightward wrap is the trail `[(9,5),(0,5)]`
(head at x=0), which also infers RIGHT; the trail `[(0,5),(9,5)]` is the
leftward wrap and infers LEFT; a trail with fewer than 2 cells infers no
heading. -/
theorem C6_heading_inference :
    infer_current_dir [(5, 5), (6, 5)] 10 10 = some "RIGHT" ∧
    infer_current_dir [(9, 5), (0, 5)] 10 10 = some "RIGHT" ∧
    infer_current_dir [(0, 5), (9, 5)] 10 10 = some "LEFT" ∧
    ∀ (t : List (Int × Int)) (W H : Nat), t.length < 2 →
      infer_current_dir t W H = none := by
  refine ⟨by decide, by decide, by decide, ?_⟩
  intro t W H h
  simp [infer_current_dir, h]

/-- C6, witness: the short-trail arm of the amended theorem at the empty
trail. -/
theorem C6_witness : infer_current_dir [] 10 10 = none :=
  C6_heading_inference.2.2.2 [] 10 10 (by decide)

/-- C8, counterexample.  The claim says the flood-fill count never exceeds a
supplied limit.  On the obstacle-free 2×1 board with `limit=1` the count is
2: the initial count of 1 for `start` is never checked against the limit,
and the first neighbour insertion returns `c=2 >= limit` — exceeding the
limit. -/
theorem C8_counterexample :
    flood_fill_count [[0, 0]] (0, 0) 2 1 (some 1) = 2 ∧ 1 < 2 := by
  decide

/-- C10, witness for the amended theorem at concrete inputs (both a completed
exchange and an exception). -/
theorem C10_witness :
    ((get_move ⟨"P1", "A1", some 1⟩ 2 (.response 404 none)).1.participant = "P1" ∧
     (get_move ⟨"P1", "A1", some 1⟩ 2 (.response 404 none)).1.agent_name = "A1") ∧
    (get_move ⟨"P1", "A1", some 1⟩ 2 .exn).1 = ⟨"P1", "A1", some 1⟩ :=
  ⟨(C10_identity_frame ⟨"P1", "A1", some 1⟩ 2 (.response 404 none)).1,
   (C10_identity_frame ⟨"P1", "A1", some 1⟩ 2 .exn).2 rfl⟩

/-- C7, counterexample.  The claim says every move evaluator's
`choose_action` returns a token without raising past its boundary on
malformed snapshots.  But `AgentS.choose_action` has no exception handler:
on the present-but-empty board `[]` it computes `W = H = 0` and the first
torus wrap `p % W` raises ZeroDivisionError past its boundary
(agents.py:113-114, 294-301). -/
theorem C7_counterexample :
    chooseActionS ⟨some [], [], [], 0, 0, 0, 0, 0, 1⟩ =
      .error "ZeroDivisionError" := by
  rfl

/-- C7, amended.  What is true of the evaluators: `AgentS.choose_action`
returns the fixed default "RIGHT" when the board key is absent
(agents.py:221-223), and `AgentC.choose_action` never raises past its
boundary — its catch-all handler makes it total, and every token it returns
is a well-formed action (the strategy move, the stored last action, or
"RIGHT"). -/
theorem C7_evaluator_fallback :
    (∀ gs : Snapshot, gs.board = none → chooseActionS gs = .ok "RIGHT") ∧
    (∀ (st : CState) (gs : Snapshot), (chooseActionC st gs).2 ∈ ACTIONS) := by
  refine ⟨fun gs h => ?_, fun st gs => ?_⟩
  · unfold chooseActionS
    rw [h]
  · unfold chooseActionC
    split
    · rename_i st2 a heq
      exact cTryBody_mem st gs st2 a heq
    · exact cFallback_mem _

/-- C7, witness: both conjuncts of the amended theorem applied at a concrete
no-board snapshot. -/
theorem C7_witness :
    chooseActionS ⟨none, [], [], 0, 0, 0, 0, 0, 1⟩ = .ok "RIGHT" ∧
    (chooseActionC cInit ⟨none, [], [], 0, 0, 0, 0, 0, 1⟩).2 ∈ ACTIONS :=
  ⟨C7_evaluator_fallback.1 ⟨none, [], [], 0, 0, 0, 0, 0, 1⟩ rfl,
   C7_evaluator_fallback.2 cInit ⟨none, [], [], 0, 0, 0, 0, 0, 1⟩⟩

/-- C9, counterexample.  The claim says an agent with 0 remaining boosts
never emits a `:BOOST` token, for every agent variant.  But AgentC's
catch-all and missing-data paths replay `self.last_action` verbatim: a first
call with 3 boosts stores "RIGHT:BOOST" as the last action, and a later call
on a snapshot where the mover's trail is empty and its boost field is 0
takes the missing-data fallback (agentc.py:74-76) and returns
"RIGHT:BOOST" — a boosted token with 0 boosts remaining. -/
theorem C9_counterexample :
    cMyBoosts ⟨some (List.replicate 5 (List.replicate 5 0)), [], [(3, 0)],
        0, 1, 0, 0, 1, 1⟩ = 0 ∧
    (chooseActionC
        (chooseActionC cInit
          ⟨some (List.replicate 5 (List.replicate 5 0)), [(0, 0), (1, 0)],
           [(3, 0)], 5, 1, 3, 3, 0, 1⟩).1
        ⟨some (List.replicate 5 (List.replicate 5 0)), [], [(3, 0)],
         0, 1, 0, 0, 1, 1⟩).2 = "RIGHT:BOOST" :=
  ⟨rfl, by rfl⟩

/-- C9, amended.  Boost gating holds for every evaluator's *fresh* decision,
but not for AgentC's stored-action replay: with the mover's boost field 0,
any token `AgentS.choose_action` returns successfully is a bare direction,
`AgentW.choose_action` always returns a bare direction, and any token
AgentC's data-present strategy path (`cMainPath`) returns successfully is a
bare direction; only AgentC's fallback replay of `last_action` can emit a
stale `:BOOST` token. -/
theorem C9_boost_gating :
    (∀ (gs : Snapshot) (tok : String), sBoosts gs = 0 →
        chooseActionS gs = .ok tok → tok ∈ ["UP", "DOWN", "LEFT", "RIGHT"]) ∧
    (∀ (gs : Snapshot) (rng : Nat), wBoostsLeft gs = 0 →
        chooseActionW gs rng ∈ ["UP", "DOWN", "LEFT", "RIGHT"]) ∧
    (∀ (st st2 : CState) (gs : Snapshot) (a : String), cMyBoosts gs = 0 →
        cMainPath st gs = (st2, .ok a) →
        a ∈ ["UP", "DOWN", "LEFT", "RIGHT"]) :=
  ⟨sChoose_no_boost, wChoose_no_boost, cMainPath_no_boost⟩

/-- C9, witness: the three conjuncts of the amended theorem applied at
concrete zero-boost snapshots (AgentS with no board, AgentW with no trail,
AgentC's strategy path on a free 5x5 board). -/
theorem C9_witness :
    (sBoosts ⟨none, [], [], 0, 0, 0, 0, 0, 1⟩ = 0 ∧
     "RIGHT" ∈ ["UP", "DOWN", "LEFT", "RIGHT"]) ∧
    (wBoostsLeft ⟨none, [], [], 0, 0, 0, 0, 0, 1⟩ = 0 ∧
     chooseActionW ⟨none, [], [], 0, 0, 0, 0, 0, 1⟩ 0 ∈
       ["UP", "DOWN", "LEFT", "RIGHT"]) ∧
    (cMyBoosts ⟨some (List.replicate 5 (List.replicate 5 0)),
        [(0, 0), (1, 0)], [(3, 0)], 5, 1, 0, 0, 0, 1⟩ = 0 ∧
     "RIGHT" ∈ ["UP", "DOWN", "LEFT", "RIGHT"]) :=
  ⟨⟨rfl, C9_boost_gating.1 ⟨none, [], [], 0, 0, 0, 0, 0, 1⟩ "RIGHT" rfl (by rfl)⟩,
   ⟨rfl, C9_boost_gating.2.1 ⟨none, [], [], 0, 0, 0, 0, 0, 1⟩ 0 rfl⟩,
   ⟨rfl, C9_boost_gating.2.2 cInit
      (cMainPath cInit ⟨some (List.replicate 5 (List.replicate 5 0)),
        [(0, 0), (1, 0)], [(3, 0)], 5, 1, 0, 0, 0, 1⟩).1
      ⟨some (List.replicate 5 (List.replicate 5 0)),
        [(0, 0), (1, 0)], [(3, 0)], 5, 1, 0, 0, 0, 1⟩ "RIGHT" rfl (by rfl)⟩⟩

end PredestinationStation
